import Mathlib

/-!
Shallow embedding of the time synchronization subsystem of the SIFT
repository: the wrapping driving policy
(`uwsift/control/time_transformer_policies.py`), the time manager matching
cycle (`uwsift/model/time_manager.py`) and the composite-layer timeline
cascade (`uwsift/model/layer_model.py`).

Timestamps (`datetime` values) are modelled as `Int` (they only need a
total order and absolute differences).  Python exceptions are modelled by
`Option`/product-with-`Option` results: a `none` outcome stands for an
exception escaping the modelled function.  Python truthiness of values
(`None`, empty lists, `0`) is modelled explicitly at each use site.
-/

namespace Sift

/-- Python list indexing semantics `l[i]` for `int` indices: non-negative
indices address from the front, negative indices address from the back,
anything out of range raises `IndexError` (modelled as `none`). -/
def pyGet (l : List α) (i : Int) : Option α :=
  if 0 ≤ i then l.get? i.toNat
  else if 0 ≤ (l.length : Int) + i then l.get? ((l.length : Int) + i).toNat
  else none

/-- `np.argmin` on a list of values: index and value of the first occurrence
of the minimum, `none` on an empty list. -/
def argminFirst : List Nat → Option (Nat × Nat)
  | [] => none
  | x :: xs =>
    match argminFirst xs with
    | none => some (0, x)
    | some (j, v) => if x ≤ v then some (0, x) else some (j + 1, v)

/-- A product dataset ("frame"): its identifier and `is_active` flag
(`uwsift/model/product_dataset.py` fields used by the modelled code). -/
structure ProductDataset where
  uuid : Nat
  is_active : Bool
  deriving DecidableEq, Repr

/-- A layer as seen by the modelled code: identifier, `dynamic` flag, and
its timeline, an ordered mapping timestamp → dataset. -/
structure LayerItem where
  uuid : Nat
  dynamic : Bool
  timeline : List (Int × ProductDataset)
  deriving DecidableEq, Repr

/-- `list(layer.timeline.keys())`. -/
def LayerItem.keys (l : LayerItem) : List Int := l.timeline.map Prod.fst

/-- A Python value as used in the heterogeneous comparison
`dynamic_layers.index(self._driving_layer_uuid)`: a `LayerItem` object, a
UUID, or `None`.  Python `==` between values of different kinds is `False`
(no custom `__eq__` is involved). -/
inductive PyVal where
  | layerV : LayerItem → PyVal
  | uuidV : Nat → PyVal
  | noneV : PyVal
  deriving DecidableEq, Repr

/-- Python `==` on the `PyVal` universe: values of different kinds never
compare equal; same-kind values compare by identity/value. -/
def pyEq : PyVal → PyVal → Bool
  | .layerV a, .layerV b => a = b
  | .uuidV a, .uuidV b => a = b
  | .noneV, .noneV => true
  | _, _ => false

/-- The mutable state of `WrappingDrivingPolicy` (its `__init__` fields). -/
structure WDP where
  layers : List LayerItem
  driving_idx : Int
  curr_t_sim : Option Int
  timeline : Option (List Int)
  driving_layer : Option LayerItem
  driving_layer_uuid : PyVal
  deriving DecidableEq, Repr

/-- `WrappingDrivingPolicy.__init__(layers)`. -/
def WDP.init (layers : List LayerItem) : WDP :=
  { layers := layers
    driving_idx := 0
    curr_t_sim := none
    timeline := none
    driving_layer := none
    driving_layer_uuid := .noneV }

/-- `WrappingDrivingPolicy._get_dynamic_layers`. -/
def WDP.get_dynamic_layers (s : WDP) : List LayerItem :=
  s.layers.filter (·.dynamic)

/-- `WrappingDrivingPolicy._driving_layer_index_in_layers`:
`self._get_dynamic_layers().index(self._driving_layer_uuid)` with
`ValueError` mapped to `None`.  `list.index` compares each element (a
`LayerItem`) against the stored value with Python `==`. -/
def WDP.driving_layer_index_in_layers (s : WDP) : Option Nat :=
  (s.get_dynamic_layers).findIdx? (fun l => pyEq (.layerV l) s.driving_layer_uuid)

/-- `WrappingDrivingPolicy.get_next_possible_driving_layer`: first dynamic
layer, or `None`. -/
def WDP.get_next_possible_driving_layer (s : WDP) : Option LayerItem :=
  s.get_dynamic_layers.head?

/-- Python truthiness of the `_timeline` field: `None` and `[]` are falsy. -/
def timelineTruthy : Option (List Int) → Bool
  | none => false
  | some l => !l.isEmpty

/-- `WrappingDrivingPolicy._find_nearest_past(tstamp)` for a non-`None`
`tstamp`: boolean mask `timeline <= tstamp` (order-preserving filter),
distances `|t - tstamp|` over the masked elements, then `np.argmin`
(first index of the minimal distance) or `None` if the mask is empty. -/
def find_nearest_past (timeline : List Int) (tstamp : Int) : Option Nat :=
  let past := timeline.filter (fun x => x ≤ tstamp)
  let distances := past.map (fun x => (x - tstamp).natAbs)
  (argminFirst distances).map Prod.fst

/-- First stage of the `driving_layer` property setter: the
`if not layer or not layer.dynamic / elif not self._driving_layer / else`
cascade (lines 74–92).  `none` models an exception: in the replacing branch
`_find_nearest_past(self._curr_t_sim)` raises a `TypeError` when
`_curr_t_sim` is `None` and the new (nonempty) timeline gets compared
against it.  The `if nearest_past_idx:` test is Python truthiness, so the
index `0` falls into the `else` branch. -/
def WDP.set_driving_layer_branches (s : WDP) (layer : Option LayerItem) : Option WDP :=
  match layer with
  | none => some { s with driving_layer := none }
  | some L =>
    if !L.dynamic then some { s with driving_layer := none }
    else
      match s.driving_layer with
      | none =>
        some { s with driving_layer := some L, timeline := some L.keys, driving_idx := 0 }
      | some _ =>
        match s.curr_t_sim with
        | none =>
          if L.keys.isEmpty then
            some { s with timeline := some L.keys, driving_layer := some L, driving_idx := 0 }
          else none
        | some t =>
          some { s with timeline := some L.keys, driving_layer := some L, driving_idx := (match find_nearest_past L.keys t with | some (Nat.succ k) => (k : Int) + 1 | _ => 0) }

/-- The full `driving_layer` setter: the branch cascade followed by the
unconditional `self._curr_t_sim = None if not self.timeline else
self.timeline[self._driving_idx]` (line 93); the indexing there can raise
(`none`). -/
def WDP.set_driving_layer (s : WDP) (layer : Option LayerItem) : Option WDP :=
  match s.set_driving_layer_branches layer with
  | none => none
  | some s1 =>
    match s1.timeline with
    | none => some { s1 with curr_t_sim := none }
    | some tl =>
      if tl.isEmpty then some { s1 with curr_t_sim := none }
      else
        match pyGet tl s1.driving_idx with
        | none => none
        | some t => some { s1 with curr_t_sim := some t }

/-- `WrappingDrivingPolicy.on_layers_update`: `if driving_layer_index:` is a
truthiness test, so both `None` and `0` select the re-assignment branch. -/
def WDP.on_layers_update (s : WDP) : Option WDP :=
  match s.driving_layer_index_in_layers with
  | some (Nat.succ _) => some s
  | _ => s.set_driving_layer s.get_next_possible_driving_layer

/-- `WrappingDrivingPolicy.change_timebase(layer)` (the signal emission has
no model-visible effect). -/
def WDP.change_timebase (s : WDP) (layer : Option LayerItem) : Option WDP :=
  s.set_driving_layer layer

/-- `WrappingDrivingPolicy.curr_t_sim()` with its two `assert` statements;
`none` models an `AssertionError` (or an `IndexError` raised while
evaluating `self.timeline[self._driving_idx]` inside the assert). -/
def WDP.curr_t_sim_checked (s : WDP) : Option (Option Int) :=
  match s.timeline with
  | none => if s.curr_t_sim = none then some s.curr_t_sim else none
  | some tl =>
    if tl.isEmpty then
      if s.curr_t_sim = none then some s.curr_t_sim else none
    else
      match pyGet tl s.driving_idx with
      | none => none
      | some v => if s.curr_t_sim = some v then some s.curr_t_sim else none

/-- `WrappingDrivingPolicy.jump_to_t_sim(index)`: the assignment
`self._driving_idx = index` happens before the (possibly raising) timeline
lookup, and `self._curr_t_sim` is never written.  The second component is
the returned timestamp, `none` when the lookup raises (including the
`TypeError` from indexing a `None` timeline). -/
def WDP.jump_to_t_sim (s : WDP) (index : Int) : WDP × Option Int :=
  match s.timeline with
  | none => ({ s with driving_idx := index }, none)
  | some tl => ({ s with driving_idx := index }, pyGet tl index)

/-- `WrappingDrivingPolicy.compute_t_sim(tick_time, backwards)` (the
`tick_time` argument is unused by the source).  `none` models the
`TypeError` from `len(None)`, the `ZeroDivisionError` from `% 0`, or the
`IndexError` from the final timeline lookup. -/
def WDP.compute_t_sim (s : WDP) (backwards : Bool) : Option (WDP × Int) :=
  match s.timeline with
  | none => none
  | some tl =>
    if backwards then
      if (tl.length : Int) = 0 then none
      else
        match pyGet tl ((s.driving_idx + ((tl.length : Int) - 1)) % (tl.length : Int)) with
        | none => none
        | some t =>
          some ({ s with driving_idx := (s.driving_idx + ((tl.length : Int) - 1)) % (tl.length : Int), curr_t_sim := some t }, t)
    else
      match pyGet tl (if (tl.length : Int) ≤ s.driving_idx + 1 then 0 else s.driving_idx + 1) with
      | none => none
      | some t =>
        some ({ s with driving_idx := (if (tl.length : Int) ≤ s.driving_idx + 1 then 0 else s.driving_idx + 1), curr_t_sim := some t }, t)

/-- State after a successful `compute_t_sim` call. -/
def WDP.stepState (s : WDP) (backwards : Bool) : Option WDP :=
  (s.compute_t_sim backwards).map Prod.fst

/-- Cursor index after a successful `compute_t_sim` call. -/
def WDP.stepIdx (s : WDP) (backwards : Bool) : Option Int :=
  (s.compute_t_sim backwards).map (fun r => r.1.driving_idx)

/-- Returned timestamp of a successful `compute_t_sim` call. -/
def WDP.stepOut (s : WDP) (backwards : Bool) : Option Int :=
  (s.compute_t_sim backwards).map Prod.snd

/-- `n` successive successful forward `compute_t_sim` calls. -/
def WDP.iterForward (s : WDP) : Nat → Option WDP
  | 0 => some s
  | n + 1 => (s.stepState false).bind (fun s' => s'.iterForward n)

/-! ## Time manager matching cycle (`uwsift/model/time_manager.py`,
`uwsift/model/layer_model.py`) -/

/-- Modelled from the spec: `TimeMatcher.match` with the `find_nearest_past`
matching policy (`uwsift/control/time_matcher.py` and
`uwsift/control/time_matcher_policies.py` are not among the provided
sources).  Spec §4.2: "returns the largest key ≤ `t_query`, or none if no
such key exists". -/
def time_matcher_match (keys : List Int) (q : Int) : Option Int :=
  (keys.filter (fun x => x ≤ q)).max?

/-- One entry of `TimeManager._match_times`: `if t_matched:` is always the
`is not None` test because `datetime` objects are truthy; on a match the
published list is `[layer.timeline[t_matched].uuid]`, otherwise `[None]`.
The dict lookup cannot fail because the matcher only returns keys of the
same timeline. -/
def match_entry (l : LayerItem) (t_sim : Int) : List (Option Nat) :=
  match time_matcher_match l.keys t_sim with
  | none => [none]
  | some tm => [(l.timeline.lookup tm).map ProductDataset.uuid]

/-- `TimeManager._match_times(t_sim)`: one entry per dynamic layer of the
layer model, keyed by the layer's uuid. -/
def match_times (layers : List LayerItem) (t_sim : Int) : List (Nat × List (Option Nat)) :=
  (layers.filter (·.dynamic)).map (fun l => (l.uuid, match_entry l t_sim))

/-- Body of the inner loop of `LayerModel.on_didMatchTimes`: every dataset of
the layer's timeline becomes active iff its uuid is listed (`None` entries
match no uuid). -/
def apply_activation (actives : List (Option Nat)) (l : LayerItem) : LayerItem :=
  { l with
    timeline :=
      l.timeline.map (fun td => (td.1, { td.2 with is_active := actives.contains (some td.2.uuid) })) }

/-- One dict entry of `on_didMatchTimes` applied to one layer: only the
layer whose uuid matches the entry's key is rewritten. -/
def apply_entry (e : Nat × List (Option Nat)) (l : LayerItem) : LayerItem :=
  if l.uuid = e.1 then apply_activation e.2 l else l

/-- `LayerModel.on_didMatchTimes(t_matched_dict)`: for each dict entry look
the layer up by uuid and rewrite its datasets' `is_active` flags. -/
def on_didMatchTimes (layers : List LayerItem) (d : List (Nat × List (Option Nat))) :
    List LayerItem :=
  d.foldl (fun ls e => ls.map (apply_entry e)) layers

/-- All dict entries applied to a single layer in order (the effect of
`on_didMatchTimes` on that one layer). -/
def apply_dict (d : List (Nat × List (Option Nat))) (l : LayerItem) : LayerItem :=
  d.foldl (fun l e => apply_entry e l) l

/-- One match-and-publish cycle of `TimeManager.sync_to_time_transformer`
for a given `t_sim`: compute the matched dict and apply it to the model. -/
def sync_cycle (layers : List LayerItem) (t_sim : Int) : List LayerItem :=
  on_didMatchTimes layers (match_times layers t_sim)

/-! ## Composite-layer timeline cascade (`uwsift/model/layer_model.py`) -/

/-- A dataset of a composite (recipe) layer; the cascade only reads and
writes its recorded input dataset uuids. -/
structure CompositeDataset where
  input_datasets_uuids : List (Option Nat)
  deriving DecidableEq, Repr

/-- An input layer's timeline: ordered mapping timestamp → dataset uuid. -/
abbrev InputTimeline := List (Int × Nat)

/-- `LayerModel._get_datasets_uuids_of_multichannel_dataset`: per input
layer the uuid of its dataset at `sched_time` (the cascade only evaluates
this at timestamps of the common timeline, where the lookup succeeds). -/
def get_datasets_uuids (sched_time : Int) (input_layers : List InputTimeline) :
    List (Option Nat) :=
  input_layers.map (fun tl => tl.lookup sched_time)

/-- `LayerModel._get_common_timeline_of_input_layers`: set intersection of
the input layers' key sets (Python folds `&` starting from the last
timeline's keys and returns a set; we keep the last timeline's key order,
which none of the proved set-level properties depend on). -/
def get_common_timeline (timelines : List InputTimeline) : List Int :=
  match timelines.getLast? with
  | none => []
  | some last =>
    (last.map Prod.fst).filter (fun t => timelines.all (fun tl => (tl.map Prod.fst).contains t))

/-- `LayerModel._get_diff_of_timelines`: walk the common timeline, sorting
each timestamp into `to_update` (already present — also deleted from the
`to_remove` list, which starts as all current keys) or `to_add`.  Returns
`(datasets_to_added, datasets_to_update, datasets_to_remove)`. -/
def get_diff_of_timelines (common : List Int) (curKeys : List Int) :
    List Int × List Int × List Int :=
  common.foldl
    (fun (acc : List Int × List Int × List Int) t =>
      if curKeys.contains t then (acc.1, acc.2.1 ++ [t], acc.2.2.erase t)
      else (acc.1 ++ [t], acc.2.1, acc.2.2))
    ([], [], curKeys)

/-- `LayerModel._remove_datasets`: delete the entry of each listed timestamp
(the timeline is a dict, so keys are unique and deletion is by key). -/
def remove_datasets (rem : List Int) (tl : List (Int × CompositeDataset)) :
    List (Int × CompositeDataset) :=
  rem.foldl (fun tl t => tl.filter (fun e => e.1 ≠ t)) tl

/-- `LayerModel._check_recipe_layer_sched_times_to_update` for a
`CompositeRecipe` layer: keep only timestamps whose recorded input dataset
uuids differ from the freshly computed ones.  (The `cur.lookup` cannot fail:
the existing timestamps are keys of the post-removal timeline.) -/
def check_sched_times_to_update (existing : List Int) (input_layers : List InputTimeline)
    (cur : List (Int × CompositeDataset)) : List Int :=
  existing.filter (fun t =>
    match cur.lookup t with
    | some d => d.input_datasets_uuids ≠ get_datasets_uuids t input_layers
    | none => true)

/-- Modelled from the spec: `ProductDataset.update_multichannel_dataset_info`
(`uwsift/model/product_dataset.py` is not among the provided sources)
leaves the dataset's info valid iff no input channel is missing at that
timestamp (spec §4.1 step 4 / §7 IncompleteComposite). -/
def composite_info_valid (inputs : List (Option Nat)) : Bool :=
  inputs.all Option.isSome

/-- `LayerModel._update_rgb_datasets`: rewrite each listed timestamp's
dataset with the freshly computed input uuids; if the recomputed info is
invalid the dataset is removed instead (spec §4.1 step 4). -/
def update_rgb_datasets (upd : List Int) (input_layers : List InputTimeline)
    (tl : List (Int × CompositeDataset)) : List (Int × CompositeDataset) :=
  upd.foldl
    (fun tl t =>
      let new_inputs := get_datasets_uuids t input_layers
      let tl' := tl.map (fun e => if e.1 = t then (e.1, ⟨new_inputs⟩) else e)
      if composite_info_valid new_inputs then tl' else tl'.filter (fun e => e.1 ≠ t))
    tl

/-- Modelled from the spec (supporting `LayerModel._add_rgb_datasets`):
`LayerItem.add_multichannel_dataset` (`uwsift/model/layer_item.py` is not
among the provided sources) inserts the new entry at its timestamp keeping
the timeline ordered by timestamp (spec §4.1). -/
def insert_sorted (t : Int) (d : CompositeDataset) :
    List (Int × CompositeDataset) → List (Int × CompositeDataset)
  | [] => [(t, d)]
  | e :: es => if t ≤ e.1 then (t, d) :: e :: es else e :: insert_sorted t d es

/-- `LayerModel._add_rgb_datasets`: create a dataset from the computed input
uuids for each timestamp to add. -/
def add_rgb_datasets (add : List Int) (input_layers : List InputTimeline)
    (tl : List (Int × CompositeDataset)) : List (Int × CompositeDataset) :=
  add.foldl (fun tl t => insert_sorted t ⟨get_datasets_uuids t input_layers⟩ tl) tl

/-- The add/update/remove operation lists one run of
`LayerModel.update_recipe_layer_timeline` performs: the diff of the common
timeline against the current one, with the update list filtered against the
post-removal timeline exactly as the source does. -/
def cascade_ops (input_layers : List InputTimeline) (cur : List (Int × CompositeDataset)) :
    List Int × List Int × List Int :=
  let common := get_common_timeline input_layers
  let diff := get_diff_of_timelines common (cur.map Prod.fst)
  (diff.1, check_sched_times_to_update diff.2.1 input_layers (remove_datasets diff.2.2 cur),
    diff.2.2)

/-- `LayerModel.update_recipe_layer_timeline` for a `CompositeRecipe` layer
(the gamma/color-limit updates do not touch the timeline): removals are
applied first, then the filtered updates, then the additions. -/
def update_recipe_layer_timeline (input_layers : List InputTimeline)
    (cur : List (Int × CompositeDataset)) : List (Int × CompositeDataset) :=
  let ops := cascade_ops input_layers cur
  add_rgb_datasets ops.1 input_layers
    (update_rgb_datasets ops.2.1 input_layers (remove_datasets ops.2.2 cur))

/-! ## Spec-side definitions (for refinement comparisons) and auxiliary
definitions used by the theorems -/

/-- Follows the spec's words (§4.3, P3): on a driving-layer swap the cursor
relocates to "the nearest timestamp in B's timeline ≤ t" — the largest
timestamp not after the previous `t_sim`. -/
def spec_nearest_past_tstamp (keys : List Int) (t : Int) : Option Int :=
  (keys.filter (fun x => x ≤ t)).max?

/-- Follows the spec's words (P5): the intersection of all input layers'
timeline keys, as a finite set. -/
def spec_keys_intersection : List InputTimeline → Finset Int
  | [] => ∅
  | [tl] => (tl.map Prod.fst).toFinset
  | tl :: rest => (tl.map Prod.fst).toFinset ∩ spec_keys_intersection rest

/-- States of `WrappingDrivingPolicy` reachable from `__init__` through the
policy's operations; `relayer` accounts for the layer model mutating the
shared `layers` list between calls. -/
inductive Reachable : WDP → Prop
  | init : ∀ ls, Reachable (WDP.init ls)
  | relayer : ∀ s ls, Reachable s → Reachable { s with layers := ls }
  | set_layer : ∀ s layer s', Reachable s → s.set_driving_layer layer = some s' → Reachable s'
  | compute : ∀ s b r, Reachable s → s.compute_t_sim b = some r → Reachable r.1
  | jump : ∀ s i, Reachable s → Reachable (s.jump_to_t_sim i).1
  | layers_update : ∀ s s', Reachable s → s.on_layers_update = some s' → Reachable s'

/-- A dynamic example layer (timeline `10 ↦ 100, 20 ↦ 101`). -/
def layA : LayerItem := ⟨1, true, [(10, ⟨100, false⟩), (20, ⟨101, false⟩)]⟩

/-- A second dynamic example layer (timeline `5 ↦ 200, 15 ↦ 201, 25 ↦ 202`). -/
def layB : LayerItem := ⟨2, true, [(5, ⟨200, false⟩), (15, ⟨201, false⟩), (25, ⟨202, false⟩)]⟩

/-- An example policy state: `layA` is the driving layer, its timeline
`[10, 20]` is adopted, the cursor is at index 0 with `t_sim = 10`. -/
def exState : WDP :=
  { layers := [layA, layB]
    driving_idx := 0
    curr_t_sim := some 10
    timeline := some [10, 20]
    driving_layer := some layA
    driving_layer_uuid := .noneV }

/-- An example state whose adopted timeline is empty (a driving layer with
zero datasets). -/
def emptyTlState : WDP := { exState with timeline := some [], curr_t_sim := none }

/-- An example state in which no timeline was ever adopted (fresh policy). -/
def noneTlState : WDP := WDP.init [layA, layB]

/-- A dynamic layer with an empty timeline. -/
def emptyLayer : LayerItem := ⟨7, true, []⟩

/-! ## Helper lemmas: `np.argmin` and the nearest-past search on sorted
timelines -/

theorem argminFirst_of_strict_desc :
    ∀ (l : List Nat) (hne : l ≠ []), List.Pairwise (fun a b => b < a) l →
      argminFirst l = some (l.length - 1, l.getLast hne)
  | [], hne, _ => absurd rfl hne
  | [x], _, _ => by simp [argminFirst]
  | x :: y :: ys, _, hd => by
    have hne' : y :: ys ≠ [] := List.cons_ne_nil _ _
    have ih := argminFirst_of_strict_desc (y :: ys) hne' hd.of_cons
    have hv : (y :: ys).getLast hne' < x :=
      (List.pairwise_cons.mp hd).1 _ (List.getLast_mem hne')
    have hnle : ¬ x ≤ (y :: ys).getLast hne' := not_le.mpr hv
    have hstep : argminFirst (x :: y :: ys) =
        match argminFirst (y :: ys) with
        | none => some (0, x)
        | some (j, v) => if x ≤ v then some (0, x) else some (j + 1, v) := rfl
    rw [hstep, ih]
    simp only [hnle, if_false]
    rw [List.getLast_cons hne']
    simp

theorem filter_le_eq_takeWhile (q : Int) :
    ∀ (l : List Int), List.Sorted (· < ·) l →
      l.filter (fun x => decide (x ≤ q)) = l.takeWhile (fun x => decide (x ≤ q))
  | [], _ => rfl
  | x :: xs, hs => by
    by_cases hx : x ≤ q
    · simp only [List.filter_cons, List.takeWhile_cons, hx, decide_eq_true_eq]
      simp [hx, filter_le_eq_takeWhile q xs hs.of_cons]
    · have hall : ∀ a ∈ xs, ¬ (a ≤ q) := fun a ha => by
        have hxa : x < a := (List.pairwise_cons.mp hs).1 a ha
        exact fun hle => hx (le_of_lt (lt_of_lt_of_le hxa hle))
      have hnil : xs.filter (fun x => decide (x ≤ q)) = [] :=
        List.filter_eq_nil_iff.mpr (by simpa using hall)
      simp [List.filter_cons, List.takeWhile_cons, hx, hnil]

theorem max?_eq_getLast?_of_sorted :
    ∀ (l : List Int), List.Sorted (· < ·) l → l.max? = l.getLast?
  | [], _ => rfl
  | [x], _ => by simp [List.max?_cons]
  | x :: y :: ys, hs => by
    have ih := max?_eq_getLast?_of_sorted (y :: ys) hs.of_cons
    have hglm : (y :: ys).getLast (List.cons_ne_nil _ _) ∈ y :: ys :=
      List.getLast_mem (List.cons_ne_nil _ _)
    have hext : (y :: ys).getLast? = some ((y :: ys).getLast (List.cons_ne_nil _ _)) :=
      List.getLast?_eq_getLast _ _
    have hlt : x < (y :: ys).getLast (List.cons_ne_nil _ _) :=
      (List.pairwise_cons.mp hs).1 _ hglm
    rw [List.max?_cons, List.getLast?_cons_cons, ih, hext]
    simp [max_eq_right (le_of_lt hlt)]

theorem find_nearest_past_sorted (tl : List Int) (q : Int) (hs : List.Sorted (· < ·) tl) :
    find_nearest_past tl q =
      if (tl.filter (fun x => x ≤ q)).length = 0 then none
      else some ((tl.filter (fun x => x ≤ q)).length - 1) := by
  unfold find_nearest_past
  by_cases hemp : tl.filter (fun x => decide (x ≤ q)) = []
  · simp [hemp, argminFirst]
  · have hlen : (tl.filter (fun x => decide (x ≤ q))).length ≠ 0 := by
      simpa [List.length_eq_zero] using hemp
    have hsorted_past : List.Sorted (· < ·) (tl.filter (fun x => decide (x ≤ q))) :=
      hs.filter _
    have hdesc : List.Pairwise (fun a b => b < a)
        ((tl.filter (fun x => decide (x ≤ q))).map (fun x => (x - q).natAbs)) := by
      rw [List.pairwise_map]
      refine List.Pairwise.imp_of_mem ?_ hsorted_past
      intro a b ha hb hab
      have hbq : b ≤ q := by simpa using List.of_mem_filter hb
      omega
    have hne2 : (tl.filter (fun x => decide (x ≤ q))).map (fun x => (x - q).natAbs) ≠ [] := by
      simpa using hemp
    show Option.map Prod.fst
        (argminFirst ((tl.filter (fun x => decide (x ≤ q))).map (fun x => (x - q).natAbs))) = _
    rw [argminFirst_of_strict_desc _ hne2 hdesc]
    simp [hlen]

theorem find_nearest_past_eq_spec (tl : List Int) (q : Int) (hs : List.Sorted (· < ·) tl) :
    find_nearest_past tl q =
      ((tl.filter (fun x => x ≤ q)).max?).map (fun m => tl.indexOf m) := by
  rw [find_nearest_past_sorted tl q hs]
  by_cases hemp : tl.filter (fun x => decide (x ≤ q)) = []
  · simp [hemp]
  · have hlen : (tl.filter (fun x => decide (x ≤ q))).length ≠ 0 := by
      simpa [List.length_eq_zero] using hemp
    rw [max?_eq_getLast?_of_sorted _ (hs.filter _), List.getLast?_eq_getLast _ hemp]
    have hplen : (tl.filter (fun x => decide (x ≤ q))).length ≤ tl.length :=
      List.length_filter_le _ _
    have htake : tl.filter (fun x => decide (x ≤ q)) =
        tl.take (tl.filter (fun x => decide (x ≤ q))).length := by
      rw [filter_le_eq_takeWhile q tl hs]
      exact List.prefix_iff_eq_take.mp (List.takeWhile_prefix _)
    have hlt : (tl.filter (fun x => decide (x ≤ q))).length - 1 <
        (tl.filter (fun x => decide (x ≤ q))).length := by omega
    have hlt2 : (tl.filter (fun x => decide (x ≤ q))).length - 1 < tl.length := by omega
    have hglast : (tl.filter (fun x => decide (x ≤ q))).getLast hemp =
        tl[(tl.filter (fun x => decide (x ≤ q))).length - 1] := by
      rw [List.getLast_eq_getElem]
      exact (List.getElem_of_eq htake hlt).trans (List.getElem_take tl)
    rw [hglast]
    have hnodup : tl.Nodup := hs.nodup
    simp only [if_neg hlen, Option.map_some']
    rw [List.indexOf_getElem hnodup]

theorem mem_le_getLast_of_sorted {l : List Int} (hs : List.Sorted (· < ·) l) (hne : l ≠ [])
    {x : Int} (hx : x ∈ l) : x ≤ l.getLast hne := by
  obtain ⟨i, hi, rfl⟩ := List.mem_iff_getElem.mp hx
  rw [List.getLast_eq_getElem]
  by_cases h : i = l.length - 1
  · subst h; exact le_refl _
  · have hij : i < l.length - 1 := by omega
    exact le_of_lt (List.pairwise_iff_getElem.mp hs i (l.length - 1) hi (by omega) hij)

/-- **C1** (nearest-past matching): for every ascending timeline (strictly
sorted, i.e. unique keys) and every query timestamp `q`,
`WrappingDrivingPolicy._find_nearest_past` returns the index of the largest
timestamp ≤ `q`, and returns `none` exactly when no such timestamp exists
(empty timeline or all timestamps strictly greater than `q`); an
exact-equality hit is a valid match, yielding that timestamp's own index. -/
theorem C1_nearest_past_match (tl : List Int) (q : Int) (hs : List.Sorted (· < ·) tl) :
    find_nearest_past tl q = ((tl.filter (fun x => x ≤ q)).max?).map (fun m => tl.indexOf m) ∧
    (q ∈ tl → find_nearest_past tl q = some (tl.indexOf q)) := by
  refine ⟨find_nearest_past_eq_spec tl q hs, fun hq => ?_⟩
  rw [find_nearest_past_eq_spec tl q hs]
  have hqf : q ∈ tl.filter (fun x => decide (x ≤ q)) := List.mem_filter.mpr ⟨hq, by simp⟩
  have hne : tl.filter (fun x => decide (x ≤ q)) ≠ [] := fun h => by simp [h] at hqf
  have hmax : (tl.filter (fun x => decide (x ≤ q))).max? = some q := by
    rw [max?_eq_getLast?_of_sorted _ (hs.filter _), List.getLast?_eq_getLast _ hne]
    have h1 : (tl.filter (fun x => decide (x ≤ q))).getLast hne ≤ q := by
      have := List.of_mem_filter (List.getLast_mem hne); simpa using this
    have h2 : q ≤ (tl.filter (fun x => decide (x ≤ q))).getLast hne :=
      mem_le_getLast_of_sorted (hs.filter _) hne hqf
    rw [le_antisymm h1 h2]
  rw [hmax]
  rfl

/-- Witness for C1 at the timeline `[10, 20, 30]` with query `20` (an
exact-equality hit). -/
theorem C1_witness :
    List.Sorted (· < ·) ([10, 20, 30] : List Int) ∧
    (find_nearest_past [10, 20, 30] 20 =
        ((([10, 20, 30] : List Int).filter (fun x => x ≤ 20)).max?).map
          (fun m => ([10, 20, 30] : List Int).indexOf m) ∧
      ((20 : Int) ∈ ([10, 20, 30] : List Int) →
        find_nearest_past [10, 20, 30] 20 = some (([10, 20, 30] : List Int).indexOf 20))) :=
  ⟨by decide, C1_nearest_past_match [10, 20, 30] 20 (by decide)⟩

/-! ## Helper lemmas: stepping (`compute_t_sim`) -/

theorem pyGet_nonneg {α : Type _} (l : List α) (i : Int) (h0 : 0 ≤ i) :
    pyGet l i = l.get? i.toNat := by
  unfold pyGet
  rw [if_pos h0]

theorem pyGet_isSome_of_lt {α : Type _} (l : List α) (i : Int) (h0 : 0 ≤ i)
    (h1 : i < (l.length : Int)) : ∃ t, pyGet l i = some t := by
  rw [pyGet_nonneg l i h0]
  have hh : i.toNat < l.length := by omega
  exact ⟨l.get ⟨i.toNat, hh⟩, List.get?_eq_get hh⟩

theorem compute_t_sim_forward (s : WDP) (tl : List Int) (h1 : s.timeline = some tl)
    (h2 : 0 ≤ s.driving_idx) (h3 : s.driving_idx < (tl.length : Int)) :
    ∃ t, pyGet tl ((s.driving_idx + 1) % (tl.length : Int)) = some t ∧
      s.compute_t_sim false =
        some ({ s with driving_idx := (s.driving_idx + 1) % (tl.length : Int), curr_t_sim := some t }, t) := by
  have hN : (0 : Int) < tl.length := lt_of_le_of_lt h2 h3
  have hidx : (if (tl.length : Int) ≤ s.driving_idx + 1 then 0 else s.driving_idx + 1)
      = (s.driving_idx + 1) % (tl.length : Int) := by
    by_cases hcase : (tl.length : Int) ≤ s.driving_idx + 1
    · have heq : s.driving_idx + 1 = (tl.length : Int) := by omega
      rw [if_pos hcase, heq, Int.emod_self]
    · rw [if_neg hcase, Int.emod_eq_of_lt (by omega) (by omega)]
  obtain ⟨t, ht⟩ := pyGet_isSome_of_lt tl _ (Int.emod_nonneg _ (by omega))
    (Int.emod_lt_of_pos _ hN)
  refine ⟨t, ht, ?_⟩
  simp only [WDP.compute_t_sim, h1, Bool.false_eq_true, if_false, hidx, ht]

theorem iterForward_emod (tl : List Int) :
    ∀ (n : Nat) (s : WDP), s.timeline = some tl → 0 ≤ s.driving_idx →
      s.driving_idx < (tl.length : Int) →
      ∃ s', s.iterForward n = some s' ∧ s'.timeline = some tl ∧
        s'.driving_idx = (s.driving_idx + n) % (tl.length : Int)
  | 0, s, h1, h2, h3 =>
    ⟨s, rfl, h1, by rw [Nat.cast_zero, Int.add_zero, Int.emod_eq_of_lt h2 h3]⟩
  | n + 1, s, h1, h2, h3 => by
    obtain ⟨t, _, hstep⟩ := compute_t_sim_forward s tl h1 h2 h3
    have hN : (0 : Int) < tl.length := lt_of_le_of_lt h2 h3
    have h2' : 0 ≤ (s.driving_idx + 1) % (tl.length : Int) := Int.emod_nonneg _ (by omega)
    have h3' : (s.driving_idx + 1) % (tl.length : Int) < (tl.length : Int) :=
      Int.emod_lt_of_pos _ hN
    obtain ⟨s', hiter, htl, hidx⟩ := iterForward_emod tl n
      { s with driving_idx := (s.driving_idx + 1) % (tl.length : Int), curr_t_sim := some t }
      h1 h2' h3'
    refine ⟨s', ?_, htl, ?_⟩
    · show (s.stepState false).bind (fun s'' => s''.iterForward n) = some s'
      rw [WDP.stepState, hstep]
      simpa using hiter
    · rw [hidx]
      show ((s.driving_idx + 1) % (tl.length : Int) + (n : Int)) % (tl.length : Int) = _
      rw [Int.emod_add_emod]
      congr 1
      push_cast
      ring

theorem compute_t_sim_backward_zero (s : WDP) (tl : List Int) (h1 : s.timeline = some tl)
    (hne : tl ≠ []) :
    ∃ t, pyGet tl ((tl.length : Int) - 1) = some t ∧
      WDP.compute_t_sim { s with driving_idx := 0 } true =
        some ({ s with driving_idx := (tl.length : Int) - 1, curr_t_sim := some t }, t) := by
  have hlen : tl.length ≠ 0 := by simpa [List.length_eq_zero] using hne
  have hN : (0 : Int) < tl.length := by omega
  obtain ⟨t, ht⟩ := pyGet_isSome_of_lt tl ((tl.length : Int) - 1) (by omega) (by omega)
  refine ⟨t, ht, ?_⟩
  have hidx : ((0 : Int) + ((tl.length : Int) - 1)) % (tl.length : Int)
      = (tl.length : Int) - 1 := by
    rw [Int.zero_add]
    exact Int.emod_eq_of_lt (by omega) (by omega)
  have hNne : ¬ ((tl.length : Int) = 0) := by omega
  simp only [WDP.compute_t_sim, h1, if_pos, hNne, if_false, hidx, ht]

/-- **C2** (wrap-around stepping): for a driving timeline of length `N ≥ 1`
and a cursor index in `[0, N)`, `compute_t_sim` called forward `N` times
returns the cursor to its start index (one forward step is `+1 (mod N)`),
one backward call from index `0` yields index `N - 1`, and each call updates
`_curr_t_sim` to — and returns — the timestamp at the new index. -/
theorem C2_wrap_around (s : WDP) (tl : List Int) (h1 : s.timeline = some tl)
    (h2 : 0 ≤ s.driving_idx) (h3 : s.driving_idx < (tl.length : Int)) :
    (s.iterForward tl.length).map WDP.driving_idx = some s.driving_idx ∧
    s.stepIdx false = some ((s.driving_idx + 1) % (tl.length : Int)) ∧
    s.stepOut false = pyGet tl ((s.driving_idx + 1) % (tl.length : Int)) ∧
    (s.stepState false).map WDP.curr_t_sim
      = some (pyGet tl ((s.driving_idx + 1) % (tl.length : Int))) ∧
    WDP.stepIdx { s with driving_idx := 0 } true = some ((tl.length : Int) - 1) ∧
    WDP.stepOut { s with driving_idx := 0 } true = pyGet tl ((tl.length : Int) - 1) ∧
    (WDP.stepState { s with driving_idx := 0 } true).map WDP.curr_t_sim
      = some (pyGet tl ((tl.length : Int) - 1)) := by
  have hne : tl ≠ [] := by
    intro hcon
    rw [hcon] at h3
    simp at h3
    omega
  obtain ⟨tf, htf, hstepf⟩ := compute_t_sim_forward s tl h1 h2 h3
  obtain ⟨tb, htb, hstepb⟩ := compute_t_sim_backward_zero s tl h1 hne
  obtain ⟨s', hiter, _, hidx⟩ := iterForward_emod tl tl.length s h1 h2 h3
  refine ⟨?_, ?_, ?_, ?_, ?_, ?_, ?_⟩
  · rw [hiter, Option.map_some']
    congr 1
    rw [hidx]
    have : (s.driving_idx + (tl.length : Int)) % (tl.length : Int)
        = s.driving_idx % (tl.length : Int) := by
      have hmul := Int.add_mul_emod_self_left s.driving_idx (tl.length : Int) 1
      rw [mul_one] at hmul
      exact hmul
    rw [this, Int.emod_eq_of_lt h2 h3]
  · rw [WDP.stepIdx, hstepf, Option.map_some']
  · rw [WDP.stepOut, hstepf, Option.map_some', htf]
  · rw [WDP.stepState, hstepf, Option.map_some', Option.map_some', htf]
  · rw [WDP.stepIdx, hstepb, Option.map_some']
  · rw [WDP.stepOut, hstepb, Option.map_some', htb]
  · rw [WDP.stepState, hstepb, Option.map_some', Option.map_some', htb]

/-- Witness for C2 at the state `exState` (timeline `[10, 20]`, cursor 0). -/
theorem C2_witness :
    exState.timeline = some [10, 20] ∧ 0 ≤ exState.driving_idx ∧
      exState.driving_idx < (([10, 20] : List Int).length : Int) ∧
    ((exState.iterForward ([10, 20] : List Int).length).map WDP.driving_idx
        = some exState.driving_idx ∧
      exState.stepIdx false
        = some ((exState.driving_idx + 1) % ((([10, 20] : List Int).length : Int))) ∧
      exState.stepOut false
        = pyGet [10, 20] ((exState.driving_idx + 1) % ((([10, 20] : List Int).length : Int))) ∧
      (exState.stepState false).map WDP.curr_t_sim
        = some (pyGet [10, 20]
            ((exState.driving_idx + 1) % ((([10, 20] : List Int).length : Int)))) ∧
      WDP.stepIdx { exState with driving_idx := 0 } true
        = some ((([10, 20] : List Int).length : Int) - 1) ∧
      WDP.stepOut { exState with driving_idx := 0 } true
        = pyGet [10, 20] ((([10, 20] : List Int).length : Int) - 1) ∧
      (WDP.stepState { exState with driving_idx := 0 } true).map WDP.curr_t_sim
        = some (pyGet [10, 20] ((([10, 20] : List Int).length : Int) - 1))) :=
  ⟨rfl, by decide, by decide, C2_wrap_around exState [10, 20] rfl (by decide) (by decide)⟩

/-- **C3** (continuity on driving-layer swap): from a state with a driving
layer and current simulated time `t`, setting the driving layer to a dynamic
layer `B` (with an ascending, unique-keys timeline) adopts `B`'s timeline
and sets the cursor to the index of the largest timestamp in `B`'s timeline
that is ≤ `t`; if no such timestamp exists the cursor is reset to index 0.
`_curr_t_sim` is re-denormalized accordingly (the relocated timestamp, or
the timeline head at index 0, or absent for an empty timeline). -/
theorem C3_swap_continuity (s : WDP) (A B : LayerItem) (t : Int)
    (hA : s.driving_layer = some A) (ht : s.curr_t_sim = some t)
    (hdyn : B.dynamic = true) (hsort : List.Sorted (· < ·) B.keys) :
    (s.set_driving_layer (some B)).map WDP.timeline = some (some B.keys) ∧
    (s.set_driving_layer (some B)).map WDP.driving_layer = some (some B) ∧
    (s.set_driving_layer (some B)).map WDP.driving_idx =
      some (match spec_nearest_past_tstamp B.keys t with
            | some m => (B.keys.indexOf m : Int)
            | none => 0) ∧
    (s.set_driving_layer (some B)).map WDP.curr_t_sim =
      some (match spec_nearest_past_tstamp B.keys t with
            | some m => some m
            | none => B.keys.head?) := by
  have hbranch : s.set_driving_layer_branches (some B) =
      some { s with timeline := some B.keys, driving_layer := some B, driving_idx := (match find_nearest_past B.keys t with | some (Nat.succ k) => (k : Int) + 1 | _ => 0) } := by
    simp only [WDP.set_driving_layer_branches, hdyn, hA, ht, Bool.not_true,
      Bool.false_eq_true, if_false]
  have hspec := find_nearest_past_eq_spec B.keys t hsort
  cases hmax : (B.keys.filter (fun x => x ≤ t)).max? with
  | none =>
    rw [hmax, Option.map_none'] at hspec
    have hidx0 :
        (match find_nearest_past B.keys t with
          | some (Nat.succ k) => (k : Int) + 1
          | _ => 0) = (0 : Int) := by rw [hspec]
    unfold WDP.set_driving_layer
    rw [hbranch]
    simp only [hidx0]
    show _ ∧ _ ∧ _ ∧ _
    by_cases hBe : B.keys.isEmpty
    · have hBnil : B.keys = [] := by simpa [List.isEmpty_iff] using hBe
      simp [spec_nearest_past_tstamp, hmax, hBe, hBnil]
    · have hne : B.keys ≠ [] := by simpa [List.isEmpty_iff] using hBe
      have hlen : (0 : Int) < (B.keys.length : Int) := by
        have : B.keys.length ≠ 0 := by simpa [List.length_eq_zero] using hne
        omega
      obtain ⟨t0, ht0⟩ := pyGet_isSome_of_lt B.keys 0 le_rfl hlen
      have ht0' : B.keys.head? = some t0 := by
        rw [pyGet_nonneg _ _ le_rfl] at ht0
        rw [← List.get?_zero]
        simpa using ht0
      simp [hBe, ht0, ht0', spec_nearest_past_tstamp, hmax]
  | some m =>
    rw [hmax, Option.map_some'] at hspec
    have hmem : m ∈ B.keys :=
      List.mem_of_mem_filter (List.max?_mem max_choice hmax)
    have hidxlt : B.keys.indexOf m < B.keys.length := List.indexOf_lt_length.mpr hmem
    have hidxm :
        (match find_nearest_past B.keys t with
          | some (Nat.succ k) => (k : Int) + 1
          | _ => 0) = (B.keys.indexOf m : Int) := by
      rw [hspec]
      cases hk : B.keys.indexOf m with
      | zero => simp
      | succ k => push_cast; simp
    have hne : ¬ B.keys.isEmpty := by
      rw [List.isEmpty_iff]
      intro hcon
      rw [hcon] at hmem
      exact absurd hmem (List.not_mem_nil m)
    have hget : pyGet B.keys (B.keys.indexOf m : Int) = some m := by
      rw [pyGet_nonneg _ _ (by positivity)]
      rw [Int.toNat_natCast]
      rw [List.get?_eq_get hidxlt]
      congr 1
      exact List.getElem_indexOf hidxlt
    unfold WDP.set_driving_layer
    rw [hbranch]
    simp only [hidxm]
    simp [hne, hget, spec_nearest_past_tstamp, hmax]

/-- Witness for C3: swapping from `layA` (`t_sim = 10`) to `layB` relocates
the cursor to `layB`'s timestamp 5 (index 0 — the largest key ≤ 10). -/
theorem C3_witness :
    exState.driving_layer = some layA ∧ exState.curr_t_sim = some 10 ∧
      layB.dynamic = true ∧ List.Sorted (· < ·) layB.keys ∧
    ((exState.set_driving_layer (some layB)).map WDP.timeline = some (some layB.keys) ∧
      (exState.set_driving_layer (some layB)).map WDP.driving_layer = some (some layB) ∧
      (exState.set_driving_layer (some layB)).map WDP.driving_idx =
        some (match spec_nearest_past_tstamp layB.keys 10 with
              | some m => (layB.keys.indexOf m : Int)
              | none => 0) ∧
      (exState.set_driving_layer (some layB)).map WDP.curr_t_sim =
        some (match spec_nearest_past_tstamp layB.keys 10 with
              | some m => some m
              | none => layB.keys.head?)) :=
  ⟨rfl, rfl, rfl, by decide,
    C3_swap_continuity exState layA layB 10 rfl rfl rfl (by decide)⟩

/-- **C5** (cursor-denormalization invariant — code bug, evaluated at the
failing input): (a) `jump_to_t_sim(1)` from `exState` (timeline `[10, 20]`,
cursor 0, `t_sim = 10`) moves `_driving_idx` to 1 but leaves `_curr_t_sim`
at the stale timestamp 10 ≠ `timeline[1] = 20`, so the code's own
assertion in `curr_t_sim()` fails afterwards (modelled as `none`);
(b) setting the driving layer to `None` does not clear the adopted
timeline, so `_curr_t_sim` is recomputed from the stale timeline and stays
present (`10`) although no driving layer is selected — not absent as
claimed. -/
theorem C5_cursor_invariant_code_bug :
    ((exState.jump_to_t_sim 1).1.driving_idx = 1 ∧
      (exState.jump_to_t_sim 1).1.timeline = some [10, 20] ∧
      (exState.jump_to_t_sim 1).1.curr_t_sim = some 10 ∧
      pyGet [10, 20] 1 = some 20 ∧
      WDP.curr_t_sim_checked (exState.jump_to_t_sim 1).1 = none) ∧
    ((exState.set_driving_layer none).map WDP.driving_layer = some none ∧
      (exState.set_driving_layer none).map WDP.curr_t_sim = some (some 10)) := by
  decide

/-- **C6** (no-driving-layer guard — code bug, evaluated at the failing
inputs): `compute_t_sim` has no guard for a zero-length (or never adopted)
timeline.  Modelled `none` results stand for the exceptions the code
raises: `ZeroDivisionError` from `% 0` on the backward step,
`IndexError` from the final lookup into an empty timeline on the forward
step, and `TypeError` from `len(None)` — instead of the claimed guarded
no-op. -/
theorem C6_no_driving_layer_guard_code_bug :
    emptyTlState.compute_t_sim true = none ∧
    emptyTlState.compute_t_sim false = none ∧
    noneTlState.compute_t_sim true = none ∧
    noneTlState.compute_t_sim false = none := by
  decide

/-- **C7 counterexample**: the claim fails on the code at concrete inputs:
with adopted timeline `[10, 20]`, `jump_to_t_sim(-1)` — index −1 is outside
`[0, 2)` — raises no error and returns timestamp 20 (Python negative
indexing); and the genuinely erroneous `jump_to_t_sim(5)` leaves the
cursor modified (`_driving_idx` becomes 5, it was 0), not unmodified. -/
theorem C7_counterexample :
    (exState.jump_to_t_sim (-1)).2 = some 20 ∧
    (exState.jump_to_t_sim (-1)).1.driving_idx = -1 ∧
    (exState.jump_to_t_sim 5).2 = none ∧
    exState.driving_idx = 0 ∧
    (exState.jump_to_t_sim 5).1.driving_idx = 5 := by
  decide

theorem pyGet_eq_none_iff {α : Type _} (l : List α) (i : Int) :
    pyGet l i = none ↔ (i < -(l.length : Int) ∨ (l.length : Int) ≤ i) := by
  unfold pyGet
  by_cases h0 : 0 ≤ i
  · rw [if_pos h0, List.get?_eq_none]
    omega
  · rw [if_neg h0]
    by_cases h1 : 0 ≤ (l.length : Int) + i
    · rw [if_pos h1, List.get?_eq_none]
      omega
    · rw [if_neg h1]
      constructor
      · intro _
        omega
      · intro _
        rfl

/-- **C7 amended** (invalid-index jump): with an adopted timeline `tl`,
`jump_to_t_sim(i)` raises exactly when `i < -len(tl)` or `i ≥ len(tl)` —
Python list indexing accepts negative indices down to `-len`, so those do
not raise and address from the back; the assignment `_driving_idx = i`
happens unconditionally, also on the error path (the cursor is *not* left
unmodified), while `_curr_t_sim` and the adopted timeline are never
touched; for `0 ≤ i < len` the timestamp at `i` is returned. -/
theorem C7_invalid_index_jump (s : WDP) (tl : List Int) (h : s.timeline = some tl) (i : Int) :
    ((s.jump_to_t_sim i).2 = none ↔ (i < -(tl.length : Int) ∨ (tl.length : Int) ≤ i)) ∧
    (s.jump_to_t_sim i).1.driving_idx = i ∧
    (s.jump_to_t_sim i).1.curr_t_sim = s.curr_t_sim ∧
    (s.jump_to_t_sim i).1.timeline = s.timeline ∧
    (0 ≤ i → (s.jump_to_t_sim i).2 = tl.get? i.toNat) ∧
    (i < 0 → -(tl.length : Int) ≤ i →
      (s.jump_to_t_sim i).2 = tl.get? ((tl.length : Int) + i).toNat) := by
  have hres : s.jump_to_t_sim i = ({ s with driving_idx := i }, pyGet tl i) := by
    unfold WDP.jump_to_t_sim
    simp only [h]
  rw [hres]
  refine ⟨pyGet_eq_none_iff tl i, rfl, rfl, rfl, ?_, ?_⟩
  · intro h0
    exact pyGet_nonneg tl i h0
  · intro hneg hge
    unfold pyGet
    rw [if_neg (by omega), if_pos (by omega)]

/-- Witness for C7 (amended) at `exState` (timeline `[10, 20]`) with the
negative index `-1`. -/
theorem C7_witness :
    exState.timeline = some [10, 20] ∧
    (((exState.jump_to_t_sim (-1)).2 = none ↔
        ((-1 : Int) < -((([10, 20] : List Int).length : Int)) ∨
          ((([10, 20] : List Int).length : Int)) ≤ (-1 : Int))) ∧
      (exState.jump_to_t_sim (-1)).1.driving_idx = -1 ∧
      (exState.jump_to_t_sim (-1)).1.curr_t_sim = exState.curr_t_sim ∧
      (exState.jump_to_t_sim (-1)).1.timeline = exState.timeline ∧
      ((0 : Int) ≤ -1 → (exState.jump_to_t_sim (-1)).2 = [10, 20].get? (Int.toNat (-1))) ∧
      ((-1 : Int) < 0 → -((([10, 20] : List Int).length : Int)) ≤ -1 →
        (exState.jump_to_t_sim (-1)).2
          = [10, 20].get? (((([10, 20] : List Int).length : Int)) + -1).toNat)) :=
  ⟨rfl, C7_invalid_index_jump exState [10, 20] rfl (-1)⟩

/-! ## Helper lemmas: `_driving_layer_uuid` is never written -/

theorem set_driving_layer_branches_uuid (s : WDP) (layer : Option LayerItem) (s' : WDP)
    (h : s.set_driving_layer_branches layer = some s') :
    s'.driving_layer_uuid = s.driving_layer_uuid := by
  unfold WDP.set_driving_layer_branches at h
  split at h
  · injection h with h; rw [← h]
  · split at h
    · injection h with h; rw [← h]
    · split at h
      · injection h with h; rw [← h]
      · split at h
        · split at h
          · injection h with h; rw [← h]
          · exact absurd h (by simp)
        · injection h with h; rw [← h]

theorem set_driving_layer_uuid (s : WDP) (layer : Option LayerItem) (s' : WDP)
    (h : s.set_driving_layer layer = some s') :
    s'.driving_layer_uuid = s.driving_layer_uuid := by
  unfold WDP.set_driving_layer at h
  split at h
  · exact absurd h (by simp)
  · rename_i s1 heq
    have h1 := set_driving_layer_branches_uuid s layer s1 heq
    split at h
    · injection h with h; rw [← h]; exact h1
    · split at h
      · injection h with h; rw [← h]; exact h1
      · split at h
        · exact absurd h (by simp)
        · injection h with h; rw [← h]; exact h1

theorem compute_t_sim_uuid (s : WDP) (b : Bool) (r : WDP × Int)
    (h : s.compute_t_sim b = some r) : r.1.driving_layer_uuid = s.driving_layer_uuid := by
  unfold WDP.compute_t_sim at h
  split at h
  · exact absurd h (by simp)
  · split at h
    · split at h
      · exact absurd h (by simp)
      · split at h
        · exact absurd h (by simp)
        · injection h with h; rw [← h]
    · split at h
      · exact absurd h (by simp)
      · injection h with h; rw [← h]

theorem jump_to_t_sim_uuid (s : WDP) (i : Int) :
    (s.jump_to_t_sim i).1.driving_layer_uuid = s.driving_layer_uuid := by
  unfold WDP.jump_to_t_sim
  split <;> rfl

theorem on_layers_update_uuid (s : WDP) (s' : WDP)
    (h : s.on_layers_update = some s') :
    s'.driving_layer_uuid = s.driving_layer_uuid := by
  unfold WDP.on_layers_update at h
  split at h
  · injection h with h; rw [← h]
  · exact set_driving_layer_uuid s _ s' h

theorem reachable_uuid_none (s : WDP) (h : Reachable s) :
    s.driving_layer_uuid = PyVal.noneV := by
  induction h with
  | init ls => rfl
  | relayer s ls _ ih => exact ih
  | set_layer s layer s' _ hset ih => rw [set_driving_layer_uuid s layer s' hset]; exact ih
  | compute s b r _ hc ih => rw [compute_t_sim_uuid s b r hc]; exact ih
  | jump s i _ ih => rw [jump_to_t_sim_uuid s i]; exact ih
  | layers_update s s' _ hu ih => rw [on_layers_update_uuid s s' hu]; exact ih

theorem set_driving_layer_sets_layer (s : WDP) (L : LayerItem) (hdyn : L.dynamic = true)
    (s' : WDP) (h : s.set_driving_layer (some L) = some s') : s'.driving_layer = some L := by
  have hb1 : ∀ s1, s.set_driving_layer_branches (some L) = some s1 →
      s1.driving_layer = some L := by
    intro s1 h1
    unfold WDP.set_driving_layer_branches at h1
    simp only [hdyn, Bool.not_true, Bool.false_eq_true, if_false] at h1
    split at h1
    · injection h1 with h1; rw [← h1]
    · split at h1
      · split at h1
        · injection h1 with h1; rw [← h1]
        · exact absurd h1 (by simp)
      · injection h1 with h1; rw [← h1]
  unfold WDP.set_driving_layer at h
  split at h
  · exact absurd h (by simp)
  · rename_i s1 heq
    have h1 := hb1 s1 heq
    split at h
    · injection h with h; rw [← h]; exact h1
    · split at h
      · injection h with h; rw [← h]; exact h1
      · split at h
        · exact absurd h (by simp)
        · injection h with h; rw [← h]; exact h1

/-- **C10** (implicit; driving-layer search never finds the stored
identifier): `_driving_layer_uuid` is initialized to `None` and never
reassigned, and `_driving_layer_index_in_layers` compares `LayerItem`
objects against it, so the search returns `None` in every reachable state;
hence `on_layers_update` never takes its early-return branch: whenever at
least one dynamic layer exists it re-selects the first dynamic layer as
driving layer — an existing driving-layer selection is never preserved
across a layers-update event. -/
theorem C10_layers_update_reselects (s : WDP) (hreach : Reachable s)
    (hdyn : s.get_dynamic_layers ≠ []) :
    s.driving_layer_uuid = PyVal.noneV ∧
    s.driving_layer_index_in_layers = none ∧
    s.get_next_possible_driving_layer = s.get_dynamic_layers.head? ∧
    (s.get_dynamic_layers.head?).isSome = true ∧
    s.on_layers_update = s.set_driving_layer s.get_dynamic_layers.head? ∧
    (s.on_layers_update).map WDP.driving_layer
      = (s.on_layers_update).map (fun _ => s.get_dynamic_layers.head?) := by
  have huuid := reachable_uuid_none s hreach
  have hidx : s.driving_layer_index_in_layers = none := by
    unfold WDP.driving_layer_index_in_layers
    rw [List.findIdx?_eq_none_iff]
    intro l _
    rw [huuid]
    rfl
  have hupd : s.on_layers_update = s.set_driving_layer s.get_dynamic_layers.head? := by
    unfold WDP.on_layers_update
    rw [hidx]
    rfl
  refine ⟨huuid, hidx, rfl, ?_, hupd, ?_⟩
  · cases hh : s.get_dynamic_layers.head? with
    | none => exact absurd (List.head?_eq_none_iff.mp hh) hdyn
    | some l => rfl
  · cases hh : s.get_dynamic_layers.head? with
    | none => exact absurd (List.head?_eq_none_iff.mp hh) hdyn
    | some L =>
      have hLdyn : L.dynamic = true := by
        have hmem : L ∈ s.get_dynamic_layers := List.mem_of_mem_head? hh
        exact List.of_mem_filter hmem
      rw [hupd, hh]
      cases hset : s.set_driving_layer (some L) with
      | none => rfl
      | some s' =>
        rw [Option.map_some', Option.map_some',
          set_driving_layer_sets_layer s L hLdyn s' hset]

/-- Witness for C10 at the freshly initialized policy over `[layA, layB]`. -/
theorem C10_witness :
    Reachable (WDP.init [layA, layB]) ∧ (WDP.init [layA, layB]).get_dynamic_layers ≠ [] ∧
    ((WDP.init [layA, layB]).driving_layer_uuid = PyVal.noneV ∧
      (WDP.init [layA, layB]).driving_layer_index_in_layers = none ∧
      (WDP.init [layA, layB]).get_next_possible_driving_layer
        = (WDP.init [layA, layB]).get_dynamic_layers.head? ∧
      ((WDP.init [layA, layB]).get_dynamic_layers.head?).isSome = true ∧
      (WDP.init [layA, layB]).on_layers_update
        = (WDP.init [layA, layB]).set_driving_layer
            (WDP.init [layA, layB]).get_dynamic_layers.head? ∧
      ((WDP.init [layA, layB]).on_layers_update).map WDP.driving_layer
        = ((WDP.init [layA, layB]).on_layers_update).map
            (fun _ => (WDP.init [layA, layB]).get_dynamic_layers.head?)) :=
  ⟨Reachable.init _, by decide,
    C10_layers_update_reselects (WDP.init [layA, layB]) (Reachable.init _) (by decide)⟩

/-! ## Helper lemmas: the match-and-publish cycle -/

theorem lookup_map_preserving (g : ProductDataset → ProductDataset)
    (hg : ∀ d, (g d).uuid = d.uuid) :
    ∀ (tl : List (Int × ProductDataset)) (tm : Int),
      ((tl.map (fun td => (td.1, g td.2))).lookup tm).map ProductDataset.uuid
        = (tl.lookup tm).map ProductDataset.uuid
  | [], _ => rfl
  | (k, d) :: es, tm => by
    simp only [List.map_cons, List.lookup_cons]
    cases h : tm == k
    · exact lookup_map_preserving g hg es tm
    · simp [hg]

theorem apply_activation_uuid (a : List (Option Nat)) (l : LayerItem) :
    (apply_activation a l).uuid = l.uuid := rfl

theorem apply_activation_dynamic (a : List (Option Nat)) (l : LayerItem) :
    (apply_activation a l).dynamic = l.dynamic := rfl

theorem apply_activation_keys (a : List (Option Nat)) (l : LayerItem) :
    (apply_activation a l).keys = l.keys := by
  unfold apply_activation LayerItem.keys
  rw [List.map_map]
  rfl

theorem match_entry_apply_activation (a : List (Option Nat)) (l : LayerItem) (q : Int) :
    match_entry (apply_activation a l) q = match_entry l q := by
  unfold match_entry
  rw [apply_activation_keys]
  cases time_matcher_match l.keys q with
  | none => rfl
  | some tm =>
    simp only [apply_activation]
    exact congrArg (fun x => [x])
      (lookup_map_preserving (fun d => { d with is_active := a.contains (some d.uuid) })
        (fun _ => rfl) l.timeline tm)

theorem apply_entry_uuid (e : Nat × List (Option Nat)) (l : LayerItem) :
    (apply_entry e l).uuid = l.uuid := by
  unfold apply_entry
  split <;> rfl

theorem apply_entry_dynamic (e : Nat × List (Option Nat)) (l : LayerItem) :
    (apply_entry e l).dynamic = l.dynamic := by
  unfold apply_entry
  split <;> rfl

theorem match_entry_apply_entry (e : Nat × List (Option Nat)) (l : LayerItem) (q : Int) :
    match_entry (apply_entry e l) q = match_entry l q := by
  unfold apply_entry
  split
  · exact match_entry_apply_activation e.2 l q
  · rfl

theorem apply_dict_uuid (d : List (Nat × List (Option Nat))) :
    ∀ (l : LayerItem), (apply_dict d l).uuid = l.uuid := by
  induction d with
  | nil => intro l; rfl
  | cons e es ih =>
    intro l
    show (apply_dict es (apply_entry e l)).uuid = l.uuid
    rw [ih (apply_entry e l), apply_entry_uuid]

theorem apply_dict_dynamic (d : List (Nat × List (Option Nat))) :
    ∀ (l : LayerItem), (apply_dict d l).dynamic = l.dynamic := by
  induction d with
  | nil => intro l; rfl
  | cons e es ih =>
    intro l
    show (apply_dict es (apply_entry e l)).dynamic = l.dynamic
    rw [ih (apply_entry e l), apply_entry_dynamic]

theorem match_entry_apply_dict (d : List (Nat × List (Option Nat))) (q : Int) :
    ∀ (l : LayerItem), match_entry (apply_dict d l) q = match_entry l q := by
  induction d with
  | nil => intro l; rfl
  | cons e es ih =>
    intro l
    show match_entry (apply_dict es (apply_entry e l)) q = match_entry l q
    rw [ih (apply_entry e l), match_entry_apply_entry]

theorem on_didMatchTimes_eq_map (d : List (Nat × List (Option Nat))) :
    ∀ (ls : List LayerItem), on_didMatchTimes ls d = ls.map (apply_dict d) := by
  induction d with
  | nil =>
    intro ls
    show ls = ls.map (fun l => l)
    rw [List.map_id']
  | cons e es ih =>
    intro ls
    show on_didMatchTimes (ls.map (apply_entry e)) es = _
    rw [ih (ls.map (apply_entry e)), List.map_map]
    rfl

theorem match_times_after_publish (layers : List LayerItem)
    (d : List (Nat × List (Option Nat))) (q : Int) :
    match_times (on_didMatchTimes layers d) q = match_times layers q := by
  rw [on_didMatchTimes_eq_map]
  unfold match_times
  rw [List.filter_map]
  have hfil : layers.filter ((fun l => l.dynamic) ∘ apply_dict d)
      = layers.filter (fun l => l.dynamic) := by
    refine List.filter_congr ?_
    intro l _
    show (apply_dict d l).dynamic = l.dynamic
    exact apply_dict_dynamic d l
  rw [hfil, List.map_map]
  refine List.map_congr_left ?_
  intro l _
  show ((apply_dict d l).uuid, match_entry (apply_dict d l) q) = (l.uuid, match_entry l q)
  rw [apply_dict_uuid, match_entry_apply_dict]

theorem apply_activation_idem (a : List (Option Nat)) (l : LayerItem) :
    apply_activation a (apply_activation a l) = apply_activation a l := by
  unfold apply_activation
  simp only [List.map_map]
  rfl

theorem apply_dict_skip (d : List (Nat × List (Option Nat))) :
    ∀ (l : LayerItem), l.uuid ∉ d.map Prod.fst → apply_dict d l = l := by
  induction d with
  | nil => intro l _; rfl
  | cons e es ih =>
    intro l hl
    show apply_dict es (apply_entry e l) = l
    have h1 : l.uuid ≠ e.1 := by
      intro hcon
      apply hl
      rw [List.map_cons, hcon]
      exact List.mem_cons_self _ _
    have h2 : apply_entry e l = l := by
      unfold apply_entry
      rw [if_neg h1]
    rw [h2]
    refine ih l ?_
    intro hcon
    exact hl (List.mem_cons_of_mem _ hcon)

theorem apply_dict_idem (d : List (Nat × List (Option Nat))) (hnd : (d.map Prod.fst).Nodup) :
    ∀ (l : LayerItem), apply_dict d (apply_dict d l) = apply_dict d l := by
  induction d with
  | nil => intro l; rfl
  | cons e es ih =>
    intro l
    have hnotin : e.1 ∉ es.map Prod.fst := (List.nodup_cons.mp hnd).1
    have hnd' : (es.map Prod.fst).Nodup := (List.nodup_cons.mp hnd).2
    show apply_dict es (apply_entry e (apply_dict (e :: es) l)) = apply_dict es (apply_entry e l)
    by_cases huuid : l.uuid = e.1
    · have hact : apply_entry e l = apply_activation e.2 l := by
        unfold apply_entry
        rw [if_pos huuid]
      have hskip1 : apply_dict es (apply_activation e.2 l) = apply_activation e.2 l := by
        refine apply_dict_skip es _ ?_
        rw [apply_activation_uuid, huuid]
        exact hnotin
      have hfull : apply_dict (e :: es) l = apply_activation e.2 l := by
        show apply_dict es (apply_entry e l) = _
        rw [hact, hskip1]
      rw [hfull, hact, hskip1]
      have hact2 : apply_entry e (apply_activation e.2 l) = apply_activation e.2 l := by
        unfold apply_entry
        rw [if_pos (by rw [apply_activation_uuid]; exact huuid)]
        exact apply_activation_idem e.2 l
      rw [hact2, hskip1]
    · have hid : apply_entry e l = l := by
        unfold apply_entry
        rw [if_neg huuid]
      have hid2 : apply_entry e (apply_dict (e :: es) l) = apply_dict (e :: es) l := by
        unfold apply_entry
        rw [if_neg (by rw [apply_dict_uuid]; exact huuid)]
      rw [hid2, hid]
      show apply_dict es (apply_dict es (apply_entry e l)) = _
      rw [hid, ih hnd' l]

theorem match_times_keys_nodup (layers : List LayerItem) (q : Int)
    (h : (layers.map LayerItem.uuid).Nodup) :
    ((match_times layers q).map Prod.fst).Nodup := by
  unfold match_times
  rw [List.map_map]
  have hsub : ((layers.filter (fun l => l.dynamic)).map LayerItem.uuid).Sublist
      (layers.map LayerItem.uuid) := List.Sublist.map _ (List.filter_sublist layers)
  exact List.Nodup.sublist hsub h

/-- **C9** (idempotent activation publish): for a fixed layer-model state
(with distinct layer uuids, as `get_layer_by_uuid` enforces) and a fixed
simulated time `t_sim`, the matched dict computed after a publish equals
the one computed before it, and publishing the same dict a second time
leaves the model unchanged — re-publishing the same `t_sim` has no
observable effect on any dataset's active state. -/
theorem C9_idempotent_publish (layers : List LayerItem) (q : Int)
    (h : (layers.map LayerItem.uuid).Nodup) :
    match_times (sync_cycle layers q) q = match_times layers q ∧
    sync_cycle (sync_cycle layers q) q = sync_cycle layers q := by
  have h1 : match_times (sync_cycle layers q) q = match_times layers q :=
    match_times_after_publish layers (match_times layers q) q
  refine ⟨h1, ?_⟩
  show on_didMatchTimes (sync_cycle layers q) (match_times (sync_cycle layers q) q)
      = sync_cycle layers q
  rw [h1]
  show on_didMatchTimes (on_didMatchTimes layers (match_times layers q)) (match_times layers q)
      = on_didMatchTimes layers (match_times layers q)
  rw [on_didMatchTimes_eq_map, on_didMatchTimes_eq_map, List.map_map]
  refine List.map_congr_left ?_
  intro l _
  exact apply_dict_idem (match_times layers q) (match_times_keys_nodup layers q h) l

/-- Witness for C9 on the two-layer model `[layA, layB]` at `t_sim = 12`. -/
theorem C9_witness :
    (([layA, layB] : List LayerItem).map LayerItem.uuid).Nodup ∧
    (match_times (sync_cycle [layA, layB] 12) 12 = match_times [layA, layB] 12 ∧
      sync_cycle (sync_cycle [layA, layB] 12) 12 = sync_cycle [layA, layB] 12) :=
  ⟨by decide, C9_idempotent_publish [layA, layB] 12 (by decide)⟩

theorem match_times_lookup (q : Int) :
    ∀ (layers : List LayerItem) (l : LayerItem), l ∈ layers → l.dynamic = true →
      (layers.map LayerItem.uuid).Nodup →
      (match_times layers q).lookup l.uuid = some (match_entry l q)
  | [], l, hmem, _, _ => absurd hmem (List.not_mem_nil l)
  | a :: ls, l, hmem, hdyn, hnd => by
    have hnd0 : (a.uuid :: ls.map LayerItem.uuid).Nodup := by simpa using hnd
    have hnd' : (ls.map LayerItem.uuid).Nodup := (List.nodup_cons.mp hnd0).2
    have hanotin : a.uuid ∉ ls.map LayerItem.uuid := (List.nodup_cons.mp hnd0).1
    unfold match_times
    rw [List.filter_cons]
    by_cases hadyn : a.dynamic = true
    · rw [if_pos (by simpa using hadyn)]
      rw [List.map_cons]
      rcases List.mem_cons.mp hmem with heq | hmem'
      · subst heq
        simp [List.lookup_cons]
      · have hne : l.uuid ≠ a.uuid := by
          intro hcon
          exact hanotin (hcon ▸ List.mem_map_of_mem LayerItem.uuid hmem')
        have hstep := match_times_lookup q ls l hmem' hdyn hnd'
        unfold match_times at hstep
        have hbeq : (l.uuid == a.uuid) = false := by simpa using hne
        rw [List.lookup_cons, hbeq]
        exact hstep
    · rw [if_neg (by simpa using hadyn)]
      rcases List.mem_cons.mp hmem with heq | hmem'
      · subst heq
        exact absurd hdyn hadyn
      · have hstep := match_times_lookup q ls l hmem' hdyn hnd'
        unfold match_times at hstep
        exact hstep

theorem apply_dict_of_lookup (l : LayerItem) :
    ∀ (d : List (Nat × List (Option Nat))), (d.map Prod.fst).Nodup →
      ∀ a, d.lookup l.uuid = some a → apply_dict d l = apply_activation a l
  | [], _, a, h => by simp [List.lookup] at h
  | e :: es, hnd, a, h => by
    have hnotin : e.1 ∉ es.map Prod.fst := (List.nodup_cons.mp (by simpa using hnd)).1
    have hnd' : (es.map Prod.fst).Nodup := (List.nodup_cons.mp (by simpa using hnd)).2
    by_cases huuid : l.uuid = e.1
    · have hlk : a = e.2 := by
        obtain ⟨k, b⟩ := e
        simp only [List.lookup_cons] at h
        rw [show (l.uuid == k) = true by simpa using huuid] at h
        injection h with h
        rw [← h]
      subst hlk
      have hent : apply_entry e l = apply_activation e.2 l := by
        unfold apply_entry
        rw [if_pos huuid]
      show apply_dict es (apply_entry e l) = apply_activation e.2 l
      rw [hent]
      refine apply_dict_skip es _ ?_
      rw [apply_activation_uuid, huuid]
      exact hnotin
    · have hent : apply_entry e l = l := by
        unfold apply_entry
        rw [if_neg huuid]
      have hlk : es.lookup l.uuid = some a := by
        obtain ⟨k, b⟩ := e
        simp only [List.lookup_cons] at h
        rw [show (l.uuid == k) = false by simpa using huuid] at h
        exact h
      show apply_dict es (apply_entry e l) = apply_activation a l
      rw [hent]
      exact apply_dict_of_lookup l es hnd' a hlk

/-- **C8 counterexample**: for a dynamic layer with an empty timeline the
orchestration publishes the activation list `[None]` — a one-element list
holding a null — not the empty list claimed. -/
theorem C8_counterexample :
    match_times [emptyLayer] 100 = [(7, [none])] ∧
    ([(none : Option Nat)] : List (Option Nat)) ≠ ([] : List (Option Nat)) := by
  decide

/-- **C8 amended** (no-match activation): for a dynamic layer whose matcher
finds no timestamp ≤ `t_sim` (in particular one with an empty timeline),
the cycle publishes the activation entry `[None]` for that layer — a list
containing no dataset identifiers, though not the literal empty list;
applying the published dict marks every dataset of that layer inactive; no
error is raised (the model is total on this path); and every other dynamic
layer's entry is exactly its own per-layer match result. -/
theorem C8_no_match_activation (layers : List LayerItem) (l : LayerItem) (q : Int)
    (hmem : l ∈ layers) (hdyn : l.dynamic = true)
    (hnd : (layers.map LayerItem.uuid).Nodup)
    (hnm : time_matcher_match l.keys q = none) :
    (match_times layers q).lookup l.uuid = some [none] ∧
    ((sync_cycle layers q).filter (fun l' => l'.uuid == l.uuid)).all
        (fun l' => l'.timeline.all (fun td => !td.2.is_active)) = true ∧
    (layers.filter (fun l' => l'.dynamic && !(l'.uuid == l.uuid))).all
        (fun l' => decide ((match_times layers q).lookup l'.uuid = some (match_entry l' q)))
      = true := by
  have hentry : match_entry l q = [none] := by
    unfold match_entry
    rw [hnm]
  have h1 : (match_times layers q).lookup l.uuid = some [none] := by
    rw [match_times_lookup q layers l hmem hdyn hnd, hentry]
  refine ⟨h1, ?_, ?_⟩
  · rw [List.all_eq_true]
    intro l' hl'
    obtain ⟨hl'mem, hl'uuid⟩ := List.mem_filter.mp hl'
    rw [sync_cycle, on_didMatchTimes_eq_map] at hl'mem
    obtain ⟨l'', hl''mem, heq⟩ := List.mem_map.mp hl'mem
    have huuid'' : l''.uuid = l.uuid := by
      have : l'.uuid = l.uuid := by simpa using hl'uuid
      rw [← heq, apply_dict_uuid] at this
      exact this
    have hll : l'' = l := List.inj_on_of_nodup_map hnd hl''mem hmem huuid''
    subst hll
    have happ : apply_dict (match_times layers q) l'' = apply_activation [none] l'' := by
      refine apply_dict_of_lookup l'' (match_times layers q)
        (match_times_keys_nodup layers q hnd) [none] ?_
      exact h1
    rw [← heq, happ]
    rw [List.all_eq_true]
    intro td htd
    unfold apply_activation at htd
    obtain ⟨td0, _, heqtd⟩ := List.mem_map.mp htd
    rw [← heqtd]
    rfl
  · rw [List.all_eq_true]
    intro l' hl'
    obtain ⟨hl'mem, hcond⟩ := List.mem_filter.mp hl'
    have hdyn' : l'.dynamic = true := by
      have := (Bool.and_eq_true _ _).mp hcond
      exact this.1
    rw [decide_eq_true_eq]
    exact match_times_lookup q layers l' hl'mem hdyn' hnd

/-- Witness for C8 (amended) on the model `[emptyLayer, layA]` with the
empty-timeline dynamic layer `emptyLayer` and `t_sim = 100`. -/
theorem C8_witness :
    emptyLayer ∈ ([emptyLayer, layA] : List LayerItem) ∧ emptyLayer.dynamic = true ∧
    (([emptyLayer, layA] : List LayerItem).map LayerItem.uuid).Nodup ∧
    time_matcher_match emptyLayer.keys 100 = none ∧
    ((match_times [emptyLayer, layA] 100).lookup emptyLayer.uuid = some [none] ∧
      ((sync_cycle [emptyLayer, layA] 100).filter
          (fun l' => l'.uuid == emptyLayer.uuid)).all
          (fun l' => l'.timeline.all (fun td => !td.2.is_active)) = true ∧
      (([emptyLayer, layA] : List LayerItem).filter
          (fun l' => l'.dynamic && !(l'.uuid == emptyLayer.uuid))).all
          (fun l' => decide ((match_times [emptyLayer, layA] 100).lookup l'.uuid
            = some (match_entry l' 100))) = true) :=
  ⟨by decide, rfl, by decide, rfl,
    C8_no_match_activation [emptyLayer, layA] emptyLayer 100 (by decide) rfl (by decide) rfl⟩

/-! ## Helper lemmas: the composite-layer cascade -/

theorem mem_get_common_timeline (timelines : List InputTimeline) (hne : timelines ≠ [])
    (t : Int) :
    t ∈ get_common_timeline timelines ↔ ∀ tl ∈ timelines, t ∈ tl.map Prod.fst := by
  unfold get_common_timeline
  cases hlast : timelines.getLast? with
  | none => exact absurd (List.getLast?_eq_none_iff.mp hlast) hne
  | some last =>
    have hlastmem : last ∈ timelines := List.mem_of_mem_getLast? hlast
    rw [List.mem_filter]
    constructor
    · intro ⟨_, hall⟩ tl htl
      have := List.all_eq_true.mp hall tl htl
      exact List.elem_iff.mp this
    · intro h
      refine ⟨h last hlastmem, List.all_eq_true.mpr ?_⟩
      intro tl htl
      exact List.elem_iff.mpr (h tl htl)

theorem get_common_timeline_nodup (timelines : List InputTimeline)
    (h : ∀ tl ∈ timelines, (tl.map Prod.fst).Nodup) :
    (get_common_timeline timelines).Nodup := by
  unfold get_common_timeline
  cases hlast : timelines.getLast? with
  | none => exact List.nodup_nil
  | some last =>
    exact List.Nodup.filter _ (h last (List.mem_of_mem_getLast? hlast))

theorem lookup_isSome_of_mem_keys {β : Type _} :
    ∀ (tl : List (Int × β)) (t : Int), t ∈ tl.map Prod.fst → (tl.lookup t).isSome = true
  | [], t, h => absurd h (List.not_mem_nil t)
  | (k, b) :: es, t, h => by
    rw [List.lookup_cons]
    cases hbeq : t == k
    · refine lookup_isSome_of_mem_keys es t ?_
      rcases List.mem_cons.mp h with heq | hmem
      · exact absurd (by simpa using heq) (by simpa using hbeq)
      · exact hmem
    · rfl

theorem lookup_filter_keys {β : Type _} (p : Int → Bool) :
    ∀ (tl : List (Int × β)) (t : Int), p t = true →
      (tl.filter (fun e => p e.1)).lookup t = tl.lookup t
  | [], _, _ => rfl
  | (k, b) :: es, t, hp => by
    by_cases hk : p k = true
    · rw [List.filter_cons, if_pos (by simpa using hk), List.lookup_cons, List.lookup_cons]
      cases t == k
      · exact lookup_filter_keys p es t hp
      · rfl
    · have hne : (t == k) = false := by
        rw [beq_eq_false_iff_ne]
        intro hcon
        rw [hcon] at hp
        exact hk hp
      rw [List.filter_cons, if_neg (by simpa using hk), List.lookup_cons, hne]
      exact lookup_filter_keys p es t hp

theorem get_diff_foldl (curKeys : List Int) :
    ∀ (common : List Int) (acc : List Int × List Int × List Int),
      common.foldl
        (fun (acc : List Int × List Int × List Int) t =>
          if curKeys.contains t then (acc.1, acc.2.1 ++ [t], acc.2.2.erase t)
          else (acc.1 ++ [t], acc.2.1, acc.2.2)) acc
      = (acc.1 ++ common.filter (fun t => !curKeys.contains t),
         acc.2.1 ++ common.filter (fun t => curKeys.contains t),
         acc.2.2.diff (common.filter (fun t => curKeys.contains t)))
  | [], acc => by simp [List.diff_nil]
  | t :: ts, acc => by
    rw [List.foldl_cons]
    by_cases hc : curKeys.contains t = true
    · rw [if_pos hc, get_diff_foldl curKeys ts]
      simp only [List.filter_cons, hc, Bool.not_true, Bool.false_eq_true, if_false, if_pos]
      rw [List.append_assoc]
      simp [List.diff_cons]
    · rw [if_neg hc, get_diff_foldl curKeys ts]
      have hcf : curKeys.contains t = false := by simpa using hc
      simp only [List.filter_cons, hcf, Bool.not_false, if_pos, Bool.false_eq_true, if_false]
      rw [List.append_assoc]
      rfl

theorem get_diff_of_timelines_eq (common curKeys : List Int) :
    get_diff_of_timelines common curKeys
      = (common.filter (fun t => !curKeys.contains t),
         common.filter (fun t => curKeys.contains t),
         curKeys.diff (common.filter (fun t => curKeys.contains t))) := by
  unfold get_diff_of_timelines
  rw [get_diff_foldl curKeys common ([], [], curKeys)]
  simp

theorem remove_datasets_eq_filter :
    ∀ (rem : List Int) (tl : List (Int × CompositeDataset)),
      remove_datasets rem tl = tl.filter (fun e => !rem.contains e.1)
  | [], tl => by
    show tl = _
    rw [List.filter_eq_self.mpr]
    intro e _
    rfl
  | r :: rs, tl => by
    show remove_datasets rs (tl.filter fun e => decide (e.1 ≠ r)) = _
    rw [remove_datasets_eq_filter rs, List.filter_filter]
    refine List.filter_congr ?_
    intro e _
    by_cases h : e.1 = r
    · simp [h]
    · simp [h]

theorem lookup_rewriteAt (t : Int) (d : CompositeDataset) :
    ∀ (tl : List (Int × CompositeDataset)) (t' : Int),
      (tl.map (fun e => if e.1 = t then (e.1, d) else e)).lookup t'
        = if t' = t then (tl.lookup t').map (fun _ => d) else tl.lookup t'
  | [], t' => by by_cases h : t' = t <;> simp [h]
  | (k, b) :: es, t' => by
    have ih := lookup_rewriteAt t d es t'
    rw [List.map_cons]
    by_cases htt : t' = t
    · rw [if_pos htt] at ih ⊢
      by_cases hkt : k = t
      · subst htt
        subst hkt
        simp [List.lookup_cons]
      · have hne : t' ≠ k := by
          rw [htt]
          exact fun hc => hkt hc.symm
        have hbeq : (t' == k) = false := beq_eq_false_iff_ne.mpr hne
        simp only [if_neg hkt, List.lookup_cons, hbeq]
        exact ih
    · rw [if_neg htt] at ih ⊢
      by_cases ht'k : t' = k
      · subst ht'k
        simp [List.lookup_cons, htt]
      · have hbeq : (t' == k) = false := beq_eq_false_iff_ne.mpr ht'k
        by_cases hkt : k = t
        · simp only [if_pos hkt, List.lookup_cons, hbeq]
          exact ih
        · simp only [if_neg hkt, List.lookup_cons, hbeq]
          exact ih

theorem keys_rewriteAt (t : Int) (d : CompositeDataset) (tl : List (Int × CompositeDataset)) :
    (tl.map (fun e => if e.1 = t then (e.1, d) else e)).map Prod.fst = tl.map Prod.fst := by
  rw [List.map_map]
  refine List.map_congr_left ?_
  intro e _
  by_cases h : e.1 = t <;> simp [h]

theorem update_rgb_cons (inp : List InputTimeline) (u : Int) (us : List Int)
    (tl : List (Int × CompositeDataset)) :
    update_rgb_datasets (u :: us) inp tl
      = update_rgb_datasets us inp
          (if composite_info_valid (get_datasets_uuids u inp)
           then tl.map (fun e => if e.1 = u then (e.1, ⟨get_datasets_uuids u inp⟩) else e)
           else (tl.map (fun e => if e.1 = u then (e.1, ⟨get_datasets_uuids u inp⟩) else e)).filter
             (fun e => e.1 ≠ u)) := rfl

theorem update_rgb_keys (inp : List InputTimeline) :
    ∀ (upd : List Int) (tl : List (Int × CompositeDataset)),
      (∀ u ∈ upd, composite_info_valid (get_datasets_uuids u inp) = true) →
      (update_rgb_datasets upd inp tl).map Prod.fst = tl.map Prod.fst
  | [], tl, _ => rfl
  | u :: us, tl, hval => by
    have hvu : composite_info_valid (get_datasets_uuids u inp) = true :=
      hval u (List.mem_cons_self u us)
    rw [update_rgb_cons, if_pos hvu,
      update_rgb_keys inp us _ (fun x hx => hval x (List.mem_cons_of_mem u hx)),
      keys_rewriteAt]

theorem update_rgb_lookup (inp : List InputTimeline) :
    ∀ (upd : List Int) (tl : List (Int × CompositeDataset)),
      (∀ u ∈ upd, composite_info_valid (get_datasets_uuids u inp) = true) →
      ∀ t' : Int,
        (update_rgb_datasets upd inp tl).lookup t'
          = if t' ∈ upd
            then (tl.lookup t').map (fun _ => (⟨get_datasets_uuids t' inp⟩ : CompositeDataset))
            else tl.lookup t'
  | [], tl, _, t' => by
    show tl.lookup t' = _
    simp
  | u :: us, tl, hval, t' => by
    have hvu : composite_info_valid (get_datasets_uuids u inp) = true :=
      hval u (List.mem_cons_self u us)
    rw [update_rgb_cons, if_pos hvu,
      update_rgb_lookup inp us _ (fun x hx => hval x (List.mem_cons_of_mem u hx)) t',
      lookup_rewriteAt]
    by_cases hus : t' ∈ us
    · rw [if_pos hus, if_pos (List.mem_cons_of_mem u hus)]
      by_cases htu : t' = u
      · rw [if_pos htu, Option.map_map]
        rfl
      · rw [if_neg htu]
    · rw [if_neg hus]
      by_cases htu : t' = u
      · subst htu
        rw [if_pos rfl, if_pos (List.mem_cons_self t' us)]
      · rw [if_neg htu, if_neg (by simp [htu, hus])]

theorem insert_sorted_lookup_self (t : Int) (d : CompositeDataset) :
    ∀ (tl : List (Int × CompositeDataset)), (insert_sorted t d tl).lookup t = some d
  | [] => by simp [insert_sorted, List.lookup_cons]
  | e :: es => by
    unfold insert_sorted
    by_cases h : t ≤ e.1
    · rw [if_pos h]
      simp [List.lookup_cons]
    · rw [if_neg h]
      have hne : (t == e.1) = false :=
        beq_eq_false_iff_ne.mpr (fun hc => h (le_of_eq hc))
      rw [List.lookup_cons, hne]
      exact insert_sorted_lookup_self t d es

theorem insert_sorted_lookup_other (t : Int) (d : CompositeDataset) (t' : Int) (hne : t' ≠ t) :
    ∀ (tl : List (Int × CompositeDataset)), (insert_sorted t d tl).lookup t' = tl.lookup t'
  | [] => by
    simp [insert_sorted, List.lookup_cons, beq_eq_false_iff_ne.mpr hne]
  | e :: es => by
    unfold insert_sorted
    by_cases h : t ≤ e.1
    · rw [if_pos h, List.lookup_cons, beq_eq_false_iff_ne.mpr hne]
    · rw [if_neg h, List.lookup_cons, List.lookup_cons]
      cases t' == e.1
      · exact insert_sorted_lookup_other t d t' hne es
      · rfl

theorem insert_sorted_mem_keys (t : Int) (d : CompositeDataset) (x : Int) :
    ∀ (tl : List (Int × CompositeDataset)),
      x ∈ (insert_sorted t d tl).map Prod.fst ↔ x = t ∨ x ∈ tl.map Prod.fst
  | [] => by simp [insert_sorted]
  | e :: es => by
    unfold insert_sorted
    by_cases h : t ≤ e.1
    · rw [if_pos h]
      simp
    · rw [if_neg h]
      rw [List.map_cons, List.mem_cons, insert_sorted_mem_keys t d x es]
      rw [List.map_cons, List.mem_cons]
      tauto

theorem insert_sorted_keys_nodup (t : Int) (d : CompositeDataset) :
    ∀ (tl : List (Int × CompositeDataset)), t ∉ tl.map Prod.fst → (tl.map Prod.fst).Nodup →
      ((insert_sorted t d tl).map Prod.fst).Nodup
  | [], _, _ => by simp [insert_sorted]
  | e :: es, hnotin, hnd => by
    unfold insert_sorted
    by_cases h : t ≤ e.1
    · rw [if_pos h]
      exact List.nodup_cons.mpr ⟨hnotin, hnd⟩
    · rw [if_neg h]
      rw [List.map_cons] at hnd ⊢
      obtain ⟨he, hnd'⟩ := List.nodup_cons.mp hnd
      have hnotin' : t ∉ es.map Prod.fst := by
        intro hc
        exact hnotin (by rw [List.map_cons]; exact List.mem_cons_of_mem _ hc)
      refine List.nodup_cons.mpr ⟨?_, insert_sorted_keys_nodup t d es hnotin' hnd'⟩
      rw [insert_sorted_mem_keys]
      rintro (hc | hc)
      · exact hnotin (by rw [List.map_cons, hc]; exact List.mem_cons_self _ _)
      · exact he hc

theorem add_rgb_lookup (inp : List InputTimeline) :
    ∀ (add : List Int) (tl : List (Int × CompositeDataset)), add.Nodup →
      ∀ t' : Int,
        (add_rgb_datasets add inp tl).lookup t'
          = if t' ∈ add then some (⟨get_datasets_uuids t' inp⟩ : CompositeDataset)
            else tl.lookup t'
  | [], tl, _, t' => by simp [add_rgb_datasets]
  | a :: as, tl, hnd, t' => by
    have hstep : add_rgb_datasets (a :: as) inp tl
        = add_rgb_datasets as inp (insert_sorted a ⟨get_datasets_uuids a inp⟩ tl) := rfl
    rw [hstep, add_rgb_lookup inp as _ (List.nodup_cons.mp hnd).2 t']
    by_cases has : t' ∈ as
    · rw [if_pos has, if_pos (List.mem_cons_of_mem a has)]
    · rw [if_neg has]
      by_cases hta : t' = a
      · subst hta
        rw [insert_sorted_lookup_self, if_pos (List.mem_cons_self t' as)]
      · rw [insert_sorted_lookup_other _ _ _ hta, if_neg (by simp [hta, has])]

theorem add_rgb_mem_keys (inp : List InputTimeline) (x : Int) :
    ∀ (add : List Int) (tl : List (Int × CompositeDataset)),
      x ∈ (add_rgb_datasets add inp tl).map Prod.fst ↔ x ∈ add ∨ x ∈ tl.map Prod.fst
  | [], tl => by simp [add_rgb_datasets]
  | a :: as, tl => by
    have hstep : add_rgb_datasets (a :: as) inp tl
        = add_rgb_datasets as inp (insert_sorted a ⟨get_datasets_uuids a inp⟩ tl) := rfl
    rw [hstep, add_rgb_mem_keys inp x as _, insert_sorted_mem_keys, List.mem_cons]
    tauto

theorem add_rgb_keys_nodup (inp : List InputTimeline) :
    ∀ (add : List Int) (tl : List (Int × CompositeDataset)), add.Nodup →
      (tl.map Prod.fst).Nodup → (∀ a ∈ add, a ∉ tl.map Prod.fst) →
      ((add_rgb_datasets add inp tl).map Prod.fst).Nodup
  | [], tl, _, htl, _ => htl
  | a :: as, tl, hnd, htl, hdisj => by
    have hstep : add_rgb_datasets (a :: as) inp tl
        = add_rgb_datasets as inp (insert_sorted a ⟨get_datasets_uuids a inp⟩ tl) := rfl
    rw [hstep]
    obtain ⟨hanotin, hnd'⟩ := List.nodup_cons.mp hnd
    refine add_rgb_keys_nodup inp as _ hnd' ?_ ?_
    · exact insert_sorted_keys_nodup a _ tl (hdisj a (List.mem_cons_self a as)) htl
    · intro b hb
      rw [insert_sorted_mem_keys]
      rintro (hc | hc)
      · exact hanotin (hc ▸ hb)
      · exact hdisj b (List.mem_cons_of_mem a hb) hc

theorem mem_spec_keys_intersection (t : Int) :
    ∀ (inputs : List InputTimeline), inputs ≠ [] →
      (t ∈ spec_keys_intersection inputs ↔ ∀ tl ∈ inputs, t ∈ tl.map Prod.fst)
  | [], h => absurd rfl h
  | [tl], _ => by simp [spec_keys_intersection]
  | tl :: tl2 :: rest, _ => by
    have ih := mem_spec_keys_intersection t (tl2 :: rest) (List.cons_ne_nil _ _)
    show t ∈ (tl.map Prod.fst).toFinset ∩ spec_keys_intersection (tl2 :: rest) ↔ _
    rw [Finset.mem_inter, List.mem_toFinset, ih]
    constructor
    · rintro ⟨h1, h2⟩ tl' htl'
      rcases List.mem_cons.mp htl' with heq | h
      · rw [heq]; exact h1
      · exact h2 tl' h
    · intro h
      exact ⟨h tl (List.mem_cons_self _ _), fun tl' htl' => h tl' (List.mem_cons_of_mem _ htl')⟩

theorem contains_iff_mem (L : List Int) (x : Int) : L.contains x = true ↔ x ∈ L :=
  List.elem_iff

theorem cascade_core (inputs : List InputTimeline) (cur : List (Int × CompositeDataset))
    (hne : inputs ≠ []) (hinnd : ∀ tl ∈ inputs, (tl.map Prod.fst).Nodup)
    (hcurnd : (cur.map Prod.fst).Nodup) :
    (∀ x, x ∈ (update_recipe_layer_timeline inputs cur).map Prod.fst ↔
      x ∈ get_common_timeline inputs) ∧
    ((update_recipe_layer_timeline inputs cur).map Prod.fst).Nodup ∧
    (∀ t ∈ get_common_timeline inputs,
      (update_recipe_layer_timeline inputs cur).lookup t
        = some ⟨get_datasets_uuids t inputs⟩) := by
  have hcom_mem : ∀ t, t ∈ get_common_timeline inputs ↔ ∀ tl ∈ inputs, t ∈ tl.map Prod.fst :=
    fun t => mem_get_common_timeline inputs hne t
  have hcom_nd : (get_common_timeline inputs).Nodup := get_common_timeline_nodup inputs hinnd
  have hvalid : ∀ t ∈ get_common_timeline inputs,
      composite_info_valid (get_datasets_uuids t inputs) = true := by
    intro t ht
    unfold composite_info_valid get_datasets_uuids
    rw [List.all_eq_true]
    intro o ho
    obtain ⟨tl, htl, heq⟩ := List.mem_map.mp ho
    rw [← heq]
    exact lookup_isSome_of_mem_keys tl t ((hcom_mem t).mp ht tl htl)
  have hmain : update_recipe_layer_timeline inputs cur =
      add_rgb_datasets
        ((get_common_timeline inputs).filter (fun t => !(cur.map Prod.fst).contains t)) inputs
        (update_rgb_datasets
          (check_sched_times_to_update
            ((get_common_timeline inputs).filter (fun t => (cur.map Prod.fst).contains t))
            inputs
            (remove_datasets
              ((cur.map Prod.fst).diff ((get_common_timeline inputs).filter
                (fun t => (cur.map Prod.fst).contains t))) cur))
          inputs
          (remove_datasets
            ((cur.map Prod.fst).diff ((get_common_timeline inputs).filter
              (fun t => (cur.map Prod.fst).contains t))) cur)) := by
    unfold update_recipe_layer_timeline cascade_ops
    simp only [get_diff_of_timelines_eq]
  rw [hmain]
  -- abbreviations
  generalize hA : ((get_common_timeline inputs).filter
    (fun t => !(cur.map Prod.fst).contains t)) = addL
  generalize hR : ((cur.map Prod.fst).diff ((get_common_timeline inputs).filter
    (fun t => (cur.map Prod.fst).contains t))) = remL
  have hT1 : remove_datasets remL cur
      = cur.filter (fun e => !remL.contains e.1) := remove_datasets_eq_filter remL cur
  -- membership of the removal list
  have hrem_mem : ∀ x, x ∈ remL ↔ x ∈ cur.map Prod.fst ∧ x ∉ get_common_timeline inputs := by
    intro x
    rw [← hR, List.Nodup.mem_diff_iff hcurnd]
    constructor
    · rintro ⟨hx, hnup⟩
      refine ⟨hx, fun hc => hnup ?_⟩
      exact List.mem_filter.mpr ⟨hc, (contains_iff_mem _ _).mpr hx⟩
    · rintro ⟨hx, hnc⟩
      exact ⟨hx, fun hc => hnc (List.mem_of_mem_filter hc)⟩
  -- membership of the addition list
  have haddL_mem : ∀ x, x ∈ addL ↔ x ∈ get_common_timeline inputs ∧ x ∉ cur.map Prod.fst := by
    intro x
    rw [← hA, List.mem_filter]
    constructor
    · rintro ⟨hx, hb⟩
      refine ⟨hx, fun hc => ?_⟩
      rw [(contains_iff_mem _ _).mpr hc] at hb
      exact absurd hb (by simp)
    · rintro ⟨hx, hnc⟩
      refine ⟨hx, ?_⟩
      cases hb : (cur.map Prod.fst).contains x
      · rfl
      · exact absurd ((contains_iff_mem _ _).mp hb) hnc
  have haddL_nd : addL.Nodup := by
    rw [← hA]
    exact List.Nodup.filter _ hcom_nd
  -- keys of the post-removal timeline
  have htl1_keys : (remove_datasets remL cur).map Prod.fst
      = (cur.map Prod.fst).filter (fun x => !remL.contains x) := by
    rw [hT1]
    symm
    exact List.filter_map Prod.fst cur
  have htl1_mem : ∀ x, x ∈ (remove_datasets remL cur).map Prod.fst ↔
      x ∈ cur.map Prod.fst ∧ x ∈ get_common_timeline inputs := by
    intro x
    rw [htl1_keys, List.mem_filter]
    constructor
    · rintro ⟨hx, hb⟩
      refine ⟨hx, ?_⟩
      by_contra hc
      rw [(contains_iff_mem _ _).mpr ((hrem_mem x).mpr ⟨hx, hc⟩)] at hb
      exact absurd hb (by simp)
    · rintro ⟨hx, hc⟩
      refine ⟨hx, ?_⟩
      cases hb : remL.contains x
      · rfl
      · exact absurd ((hrem_mem x).mp ((contains_iff_mem _ _).mp hb)).2 (fun h => h hc)
  have htl1_nd : ((remove_datasets remL cur).map Prod.fst).Nodup := by
    rw [htl1_keys]
    exact List.Nodup.filter _ hcurnd
  -- the filtered update list is inside the common timeline
  have hupdC_sub : ∀ u ∈ check_sched_times_to_update
      ((get_common_timeline inputs).filter (fun t => (cur.map Prod.fst).contains t)) inputs
      (remove_datasets remL cur), u ∈ get_common_timeline inputs := by
    intro u hu
    exact List.mem_of_mem_filter (List.mem_of_mem_filter hu)
  have hupdC_valid : ∀ u ∈ check_sched_times_to_update
      ((get_common_timeline inputs).filter (fun t => (cur.map Prod.fst).contains t)) inputs
      (remove_datasets remL cur),
      composite_info_valid (get_datasets_uuids u inputs) = true :=
    fun u hu => hvalid u (hupdC_sub u hu)
  generalize hUC : check_sched_times_to_update
    ((get_common_timeline inputs).filter (fun t => (cur.map Prod.fst).contains t)) inputs
    (remove_datasets remL cur) = updC at hupdC_sub hupdC_valid ⊢
  have htl2_keys : (update_rgb_datasets updC inputs (remove_datasets remL cur)).map Prod.fst
      = (remove_datasets remL cur).map Prod.fst :=
    update_rgb_keys inputs updC _ hupdC_valid
  have hdisj : ∀ a ∈ addL,
      a ∉ (update_rgb_datasets updC inputs (remove_datasets remL cur)).map Prod.fst := by
    intro a ha hc
    rw [htl2_keys] at hc
    exact ((haddL_mem a).mp ha).2 ((htl1_mem a).mp hc).1
  have hkeysr_mem : ∀ x,
      x ∈ (add_rgb_datasets addL inputs
        (update_rgb_datasets updC inputs (remove_datasets remL cur))).map Prod.fst ↔
      x ∈ get_common_timeline inputs := by
    intro x
    rw [add_rgb_mem_keys, htl2_keys, htl1_mem]
    constructor
    · rintro (h | h)
      · exact ((haddL_mem x).mp h).1
      · exact h.2
    · intro h
      by_cases hx : x ∈ cur.map Prod.fst
      · exact Or.inr ⟨hx, h⟩
      · exact Or.inl ((haddL_mem x).mpr ⟨h, hx⟩)
  have hkeysr_nd : ((add_rgb_datasets addL inputs
      (update_rgb_datasets updC inputs (remove_datasets remL cur))).map Prod.fst).Nodup :=
    add_rgb_keys_nodup inputs addL _ haddL_nd (htl2_keys ▸ htl1_nd) hdisj
  refine ⟨hkeysr_mem, hkeysr_nd, ?_⟩
  intro t ht
  rw [add_rgb_lookup inputs addL _ haddL_nd t]
  by_cases hadd : t ∈ addL
  · rw [if_pos hadd]
  · rw [if_neg hadd]
    have hcur : t ∈ cur.map Prod.fst := by
      by_contra hc
      exact hadd ((haddL_mem t).mpr ⟨ht, hc⟩)
    have htl1 : t ∈ (remove_datasets remL cur).map Prod.fst := (htl1_mem t).mpr ⟨hcur, ht⟩
    rw [update_rgb_lookup inputs updC _ hupdC_valid t]
    by_cases hupd : t ∈ updC
    · rw [if_pos hupd]
      obtain ⟨d, hd⟩ := Option.isSome_iff_exists.mp (lookup_isSome_of_mem_keys _ t htl1)
      rw [hd]
      rfl
    · rw [if_neg hupd]
      obtain ⟨d, hd⟩ := Option.isSome_iff_exists.mp (lookup_isSome_of_mem_keys _ t htl1)
      rw [hd]
      by_cases hdq : d.input_datasets_uuids = get_datasets_uuids t inputs
      · obtain ⟨dl⟩ := d
        rw [show dl = get_datasets_uuids t inputs from hdq]
      · exfalso
        apply hupd
        rw [← hUC]
        refine List.mem_filter.mpr ⟨?_, ?_⟩
        · exact List.mem_filter.mpr ⟨ht, (contains_iff_mem _ _).mpr hcur⟩
        · show (match (remove_datasets remL cur).lookup t with
            | some d => decide (d.input_datasets_uuids ≠ get_datasets_uuids t inputs)
            | none => true) = true
          rw [hd]
          simpa using hdq

/-- **C4** (cascade consistency): for a composite layer with a nonempty list
of (present) input layers whose timelines have unique keys, one run of
`update_recipe_layer_timeline` makes the composite timeline's key set
exactly the intersection of all input layers' timeline keys (removals are
applied first, then the updates — filtered to timestamps whose recorded
input dataset uuids changed — then the additions, as the embedded
definition spells out), and the cascade is idempotent: re-running it on the
result computes empty add/update/remove operation lists and leaves the
timeline unchanged. -/
theorem C4_cascade_consistency (inputs : List InputTimeline)
    (cur : List (Int × CompositeDataset)) (hne : inputs ≠ [])
    (hinnd : ∀ tl ∈ inputs, (tl.map Prod.fst).Nodup)
    (hcurnd : (cur.map Prod.fst).Nodup) :
    ((update_recipe_layer_timeline inputs cur).map Prod.fst).toFinset
      = spec_keys_intersection inputs ∧
    cascade_ops inputs (update_recipe_layer_timeline inputs cur) = ([], [], []) ∧
    update_recipe_layer_timeline inputs (update_recipe_layer_timeline inputs cur)
      = update_recipe_layer_timeline inputs cur := by
  obtain ⟨hkeys_mem, hkeys_nd, hlookup⟩ := cascade_core inputs cur hne hinnd hcurnd
  have hcom_mem : ∀ t, t ∈ get_common_timeline inputs ↔ ∀ tl ∈ inputs, t ∈ tl.map Prod.fst :=
    fun t => mem_get_common_timeline inputs hne t
  -- the re-run computes an empty diff
  have h1 : (get_common_timeline inputs).filter
      (fun t => !((update_recipe_layer_timeline inputs cur).map Prod.fst).contains t) = [] := by
    rw [List.filter_eq_nil_iff]
    intro t ht
    rw [(contains_iff_mem _ _).mpr ((hkeys_mem t).mpr ht)]
    simp
  have h2 : (get_common_timeline inputs).filter
      (fun t => ((update_recipe_layer_timeline inputs cur).map Prod.fst).contains t)
      = get_common_timeline inputs := by
    rw [List.filter_eq_self]
    intro t ht
    exact (contains_iff_mem _ _).mpr ((hkeys_mem t).mpr ht)
  have h3 : ((update_recipe_layer_timeline inputs cur).map Prod.fst).diff
      (get_common_timeline inputs) = [] := by
    rw [List.eq_nil_iff_forall_not_mem]
    intro x hx
    obtain ⟨hx1, hx2⟩ := (List.Nodup.mem_diff_iff hkeys_nd).mp hx
    exact hx2 ((hkeys_mem x).mp hx1)
  have h4 : check_sched_times_to_update (get_common_timeline inputs) inputs
      (update_recipe_layer_timeline inputs cur) = [] := by
    unfold check_sched_times_to_update
    rw [List.filter_eq_nil_iff]
    intro t ht
    show ¬ ((match (update_recipe_layer_timeline inputs cur).lookup t with
      | some d => decide (d.input_datasets_uuids ≠ get_datasets_uuids t inputs)
      | none => true) = true)
    rw [hlookup t ht]
    simp
  have hops2 : cascade_ops inputs (update_recipe_layer_timeline inputs cur) = ([], [], []) := by
    unfold cascade_ops
    simp only [get_diff_of_timelines_eq]
    rw [h1, h2, h3]
    show ([], check_sched_times_to_update (get_common_timeline inputs) inputs
      (remove_datasets [] (update_recipe_layer_timeline inputs cur)), []) = ([], [], [])
    rw [show remove_datasets [] (update_recipe_layer_timeline inputs cur)
      = update_recipe_layer_timeline inputs cur from rfl, h4]
  refine ⟨?_, hops2, ?_⟩
  · apply Finset.ext
    intro x
    rw [List.mem_toFinset, hkeys_mem x, mem_spec_keys_intersection x inputs hne]
    exact hcom_mem x
  · show add_rgb_datasets
        (cascade_ops inputs (update_recipe_layer_timeline inputs cur)).1 inputs
        (update_rgb_datasets
          (cascade_ops inputs (update_recipe_layer_timeline inputs cur)).2.1 inputs
          (remove_datasets
            (cascade_ops inputs (update_recipe_layer_timeline inputs cur)).2.2
            (update_recipe_layer_timeline inputs cur)))
      = update_recipe_layer_timeline inputs cur
    rw [hops2]
    rfl

/-- Witness for C4 with input timelines `{10,20,30}` and `{20,30,40}` and a
stale composite timeline holding keys 10 (to remove) and 20 (to update). -/
theorem C4_witness :
    ([[((10 : Int), (500 : Nat)), (20, 501), (30, 502)], [(20, 600), (30, 601), (40, 602)]] : List InputTimeline) ≠ [] ∧
    (∀ tl ∈ ([[((10 : Int), (500 : Nat)), (20, 501), (30, 502)], [(20, 600), (30, 601), (40, 602)]] : List InputTimeline), (tl.map Prod.fst).Nodup) ∧
    (([((10 : Int), (⟨[some 1, some 2]⟩ : CompositeDataset)), (20, ⟨[some 500, some 600]⟩)]).map Prod.fst).Nodup ∧
    (((update_recipe_layer_timeline [[((10 : Int), (500 : Nat)), (20, 501), (30, 502)], [(20, 600), (30, 601), (40, 602)]] [((10 : Int), (⟨[some 1, some 2]⟩ : CompositeDataset)), (20, ⟨[some 500, some 600]⟩)]).map Prod.fst).toFinset
        = spec_keys_intersection [[((10 : Int), (500 : Nat)), (20, 501), (30, 502)], [(20, 600), (30, 601), (40, 602)]] ∧
      cascade_ops [[((10 : Int), (500 : Nat)), (20, 501), (30, 502)], [(20, 600), (30, 601), (40, 602)]] (update_recipe_layer_timeline [[((10 : Int), (500 : Nat)), (20, 501), (30, 502)], [(20, 600), (30, 601), (40, 602)]] [((10 : Int), (⟨[some 1, some 2]⟩ : CompositeDataset)), (20, ⟨[some 500, some 600]⟩)]) = ([], [], []) ∧
      update_recipe_layer_timeline [[((10 : Int), (500 : Nat)), (20, 501), (30, 502)], [(20, 600), (30, 601), (40, 602)]] (update_recipe_layer_timeline [[((10 : Int), (500 : Nat)), (20, 501), (30, 502)], [(20, 600), (30, 601), (40, 602)]] [((10 : Int), (⟨[some 1, some 2]⟩ : CompositeDataset)), (20, ⟨[some 500, some 600]⟩)])
        = update_recipe_layer_timeline [[((10 : Int), (500 : Nat)), (20, 501), (30, 502)], [(20, 600), (30, 601), (40, 602)]] [((10 : Int), (⟨[some 1, some 2]⟩ : CompositeDataset)), (20, ⟨[some 500, some 600]⟩)]) :=
  ⟨by decide, by decide, by decide,
    C4_cascade_consistency [[((10 : Int), (500 : Nat)), (20, 501), (30, 502)], [(20, 600), (30, 601), (40, 602)]] [((10 : Int), (⟨[some 1, some 2]⟩ : CompositeDataset)), (20, ⟨[some 500, some 600]⟩)] (by decide) (by decide) (by decide)⟩

end Sift
